import Mathlib

/-!
# mediasmartserverd: the device monitor

A shallow embedding of `src/device_monitor.cpp` (class `DeviceMonitor`): the
slot mapping, the add/remove handlers, the enumeration of present disks, the
activity polling pass with its stats-line tokenizer, and the main loop.

Conventions of the embedding

* `std::string` contents are `List Char`; paths and device nodes are `String`.
* `std::string::size_type` values are `Nat`, with `npos = 2 ^ 64 - 1`.
* The udev handles are records holding what the code asks of them.
* The LED driver (`leds_`) is the list of `Set` calls it has received, in
  order; `none` is the null pointer.
* Text written to `std::cout` is not modelled.
* `idx_trace` is a ghost field: it records every index used on one of the
  three member arrays, in order.
-/

namespace MediaSmartServer

/-! ## Strings -/

/-- The value of `std::string::npos`. -/
def npos : Nat := 2 ^ 64 - 1

/-- Index of the first character satisfying `p`, if there is one. -/
def firstIdx (p : Char → Bool) : List Char → Option Nat
  | [] => none
  | c :: cs => if p c then some 0 else (firstIdx p cs).map (fun k => k + 1)

/-- The call `s.find_first_not_of(" ", pos)`. -/
def find_first_not_of (s : List Char) (pos : Nat) : Nat :=
  match firstIdx (fun c => c != ' ') (s.drop pos) with
  | some k => pos + k
  | none => npos

/-- The call `s.find_first_of(" ", pos)`. -/
def find_first_of (s : List Char) (pos : Nat) : Nat :=
  match firstIdx (fun c => c == ' ') (s.drop pos) with
  | some k => pos + k
  | none => npos

/-- Exceptions that leave `Main`. -/
inductive Exn where
  | out_of_range
  | ErrnoException (what : String)
  deriving DecidableEq, Repr

deriving instance DecidableEq for Except

/-- The call `s.substr(pos, n)`: throws `std::out_of_range` when
`pos > s.size()`, otherwise the characters `[pos, min(pos + n, size))`. -/
def substr (s : List Char) (pos n : Nat) : Except Exn (List Char) :=
  if s.length < pos then .error .out_of_range else .ok ((s.drop pos).take n)

/-- Subtraction of two `size_type` values (unsigned, 64 bits). -/
def size_sub (a b : Nat) : Nat := (a + 2 ^ 64 - b) % 2 ^ 64

/-- The C predicate `isspace` in the "C" locale. -/
def isspace (c : Char) : Bool := c.toNat == 32 || (9 ≤ c.toNat && c.toNat ≤ 13)

/-- The C predicate `isdigit`. -/
def isdigit (c : Char) : Bool := 48 ≤ c.toNat && c.toNat ≤ 57

/-- Value of the longest prefix of decimal digits, continuing from `acc`. -/
def digitsValue : List Char → Nat → Nat
  | [], acc => acc
  | c :: cs, acc => if isdigit c then digitsValue cs (acc * 10 + (c.toNat - 48)) else acc

/-- The call `strtol(s, NULL, 10)` of glibc: leading white space, an optional
sign, decimal digits; the result saturates at `LONG_MIN` and `LONG_MAX`. -/
def strtol (s : List Char) : Int :=
  match s.dropWhile isspace with
  | [] => 0
  | c :: cs =>
    if c = '-' then max (-(digitsValue cs 0 : Int)) (-(2 ^ 63))
    else if c = '+' then min (digitsValue cs 0 : Int) (2 ^ 63 - 1)
    else min (digitsValue (c :: cs) 0 : Int) (2 ^ 63 - 1)

/-- Conversion of a `long` to `int` (two's complement, 32 bits). -/
def toInt32 (x : Int) : Int := (x + 2 ^ 31) % 2 ^ 32 - 2 ^ 31

/-- The call `atoi(s)`, which glibc defines as `(int) strtol(s, NULL, 10)`. -/
def atoi (s : List Char) : Int := toInt32 (strtol s)

/-- The call `stats.getline(buf, count)`: characters up to the first newline,
at most `count - 1` of them. A stream that failed to open stores the empty
string. -/
def getline (content : Option (List Char)) (count : Nat) : List Char :=
  match content with
  | none => []
  | some cs => (cs.takeWhile (fun c => c != Char.ofNat 10)).take (count - 1)

/-- The conversion `std::string s(buf)`: the characters before the first NUL. -/
def cstring (buf : List Char) : List Char := buf.takeWhile (fun c => c != Char.ofNat 0)

/-! ## The stats-line tokenizer of `Main` (lines 164-183) -/

/-- The local `queue_tok` of `Main`. -/
def queue_tok : Nat := 8

/-- The `while` loop of lines 170-183, with `fuel` bounding the number of
iterations. `none` is "out of fuel"; `some (.ok q)` is the value of
`queue_length` when the loop is left; `some (.error e)` is an exception
thrown by `substr`. -/
def tokenLoop (s : List Char) : Nat → Nat → Nat → Nat → Option (Except Exn Int)
  | 0, _, _, _ => none
  | fuel + 1, tok, last, pos =>
    if pos ≠ npos ∨ last ≠ npos then
      let last1 := find_first_not_of s pos
      let pos1 := find_first_of s last1
      let tok1 := tok + 1
      if tok1 = queue_tok then
        match substr s last1 (size_sub pos1 last1) with
        | .error e => some (.error e)
        | .ok t => some (.ok (atoi t))
      else tokenLoop s fuel tok1 last1 pos1
    else some (.ok 0)

/-- Lines 164-183: the value of `queue_length` computed from the stats line
`s`, or the exception thrown on the way. The loop breaks at the latest in its
`queue_tok`-th iteration, so `queue_tok` units of fuel are enough (theorem
`tokenize_fuel_enough`) and the default is never used. -/
def tokenize (s : List Char) : Except Exn Int :=
  (tokenLoop s queue_tok 0 (find_first_not_of s 0)
    (find_first_of s (find_first_not_of s 0))).getD (.ok 0)

/-! ## The space-separated fields of a line, as the specification words it -/

/-- Split at every space, keeping empty pieces. -/
def splitSpaces : List Char → List (List Char)
  | [] => [[]]
  | c :: cs =>
    if c = ' ' then [] :: splitSpaces cs
    else
      match splitSpaces cs with
      | [] => [[c]]
      | t :: ts => (c :: t) :: ts

/-- The space-separated fields of a line: the maximal runs of characters
other than the space, in order. Field `k` (1-based) is `(fields s)[k - 1]`. -/
def fields (s : List Char) : List (List Char) :=
  (splitSpaces s).filter (fun t => !t.isEmpty)

/-! ## Data model -/

/-- The LED colours used by the monitor. -/
inductive LedType where
  | LED_BLUE
  | LED_RED
  deriving DecidableEq, Repr

/-- One call `leds_->Set(led, idx, state)`. -/
structure LedCall where
  led : LedType
  idx : Nat
  state : Bool
  deriving DecidableEq, Repr

/-- The scsi_host ancestor of a device; `parent_subsystem` is the subsystem of
`udev_device_get_parent(scsi_host)`, `none` when the host has no parent. -/
structure ScsiHost where
  parent_subsystem : Option String
  deriving DecidableEq, Repr

/-- What the code asks of a `udev_device`: its syspath, its device node (the
code converts it to `std::string` unconditionally, so the device has one),
its action, and its scsi_host ancestor (`none` when
`udev_device_get_parent_with_subsystem_devtype` finds none). -/
structure udev_device where
  syspath : String
  devnode : String
  action : Option String
  scsi_host : Option ScsiHost
  deriving DecidableEq, Repr

/-- The file system as the monitor sees it: the content of the file at a
path, `none` when the file cannot be opened. -/
abbrev FileSystem := String → Option (List Char)

/-- The members of `DeviceMonitor` the code uses. -/
structure DeviceMonitor where
  num_disks_ : Nat
  disk_led_map_ : String → Option Nat
  stats_files_ : Nat → String
  leds_idx_ : Nat → Nat
  led_enabled_ : Nat → Bool
  leds_ : Option (List LedCall)
  idx_trace : List Nat

/-- Modelled from the spec: the driver behind `leds_` (class `LedControl`) is
not among the sources. Presence and activity are two independently settable
signals of a slot, so the lamp `(led, idx)` shows what the last `Set` call
for it said, and `init` when there was none. -/
def lampOn (init : LedType → Nat → Bool) (calls : List LedCall) (led : LedType) (idx : Nat) :
    Bool :=
  calls.foldl (fun acc c => if c.led = led ∧ c.idx = idx then c.state else acc) (init led idx)

namespace DeviceMonitor

/-- The assignment `m[k] = v` on the slot mapping. -/
def mapInsert (m : String → Option Nat) (k : String) (v : Nat) : String → Option Nat :=
  fun x => if x = k then some v else m x

/-- The slot mapping the constructor builds (lines 52-55). -/
def slotMapping : String → Option Nat :=
  mapInsert (mapInsert (mapInsert (mapInsert (fun _ => none) "/dev/sda" 0) "/dev/sdb" 1)
    "/dev/sdc" 2) "/dev/sdd" 3

/-- The constructor (lines 47-56). The `int` and `bool` arrays are not
initialised there, so their content is a parameter. -/
def create (idx0 : Nat → Nat) (en0 : Nat → Bool) : DeviceMonitor where
  num_disks_ := 0
  disk_led_map_ := slotMapping
  stats_files_ := fun _ => ""
  leds_idx_ := idx0
  led_enabled_ := en0
  leds_ := none
  idx_trace := []

/-- The call `leds_->Set(led, idx, state)` behind the test `if ( leds_ )`. -/
def ledSet (st : DeviceMonitor) (led : LedType) (idx : Nat) (state : Bool) : DeviceMonitor :=
  { st with leds_ := st.leds_.map (fun calls => calls ++ [⟨led, idx, state⟩]) }

/-- Ghost: record the use of index `i` on a member array. -/
def touch (st : DeviceMonitor) (i : Nat) : DeviceMonitor :=
  { st with idx_trace := st.idx_trace ++ [i] }

/-- Modelled from the spec: the accessor `statsFile(i)` is declared in
device_monitor.h, which is not among the sources; it yields the stats-source
path recorded for tracked disk `i`. -/
def statsFile (st : DeviceMonitor) (i : Nat) : String := st.stats_files_ i

/-- Modelled from the spec: the accessor `ledIndex(i)` is declared in
device_monitor.h, which is not among the sources; it yields the slot index
recorded for tracked disk `i`. -/
def ledIndex (st : DeviceMonitor) (i : Nat) : Nat := st.leds_idx_ i

/-- Lines 223-246. -/
def deviceChanged_ (st : DeviceMonitor) (device : udev_device) (state : Bool) : DeviceMonitor :=
  match device.scsi_host with
  | none => st
  | some scsi_host =>
    match scsi_host.parent_subsystem with
    | none => st
    | some subsystem =>
      if subsystem ≠ "pci" then st
      else
        match st.disk_led_map_ device.devnode with
        | none => st
        | some led_idx =>
          let st1 := ledSet st .LED_BLUE led_idx state
          { touch st1 led_idx with led_enabled_ := Function.update st1.led_enabled_ led_idx state }

/-- Lines 209-212. -/
def deviceAdded_ (st : DeviceMonitor) (device : udev_device) : DeviceMonitor :=
  deviceChanged_ st device true

/-- Lines 216-219. -/
def deviceRemove_ (st : DeviceMonitor) (device : udev_device) : DeviceMonitor :=
  deviceChanged_ st device false

/-- Lines 282-286: the slot index and the stats-source path of the device are
written at index `num_disks_` of the tracked-disk table. -/
def recordDisk (st : DeviceMonitor) (led_idx : Nat) (syspath : String) : DeviceMonitor :=
  { touch st st.num_disks_ with
    leds_idx_ := Function.update st.leds_idx_ st.num_disks_ led_idx
    stats_files_ := Function.update st.stats_files_ st.num_disks_ (syspath ++ "/stat") }

/-- Line 299: `++num_disks_`. -/
def countDisk (st : DeviceMonitor) : DeviceMonitor :=
  { st with num_disks_ := st.num_disks_ + 1 }

/-- Lines 250-303: the loop over the enumeration list. An entry is `none`
when `udev_device_new_from_syspath` yields no device. -/
def enumDevices_ (fs : FileSystem) : DeviceMonitor → List (Option udev_device) → DeviceMonitor
  | st, [] => st
  | st, none :: rest => enumDevices_ fs st rest
  | st, some device :: rest =>
    match device.scsi_host with
    | none => st
    | some _ =>
      match st.disk_led_map_ device.devnode with
      | none => enumDevices_ fs st rest
      | some led_idx =>
        match fs ((recordDisk st led_idx device.syspath).stats_files_ st.num_disks_) with
        | none => enumDevices_ fs (recordDisk st led_idx device.syspath) rest
        | some _ =>
          enumDevices_ fs
            (deviceAdded_ (countDisk (recordDisk st led_idx device.syspath)) device) rest

/-- Lines 157-162: the string `s` read from the stats source of tracked disk
`i`. -/
def statsLine (fs : FileSystem) (st : DeviceMonitor) (i : Nat) : List Char :=
  cstring (getline (fs (statsFile st i)) 255)

/-- Lines 157-199: the body of the polling loop for tracked disk `i`. The
second component is the exception that left the body, if any. -/
def pollDisk (fs : FileSystem) (st : DeviceMonitor) (i : Nat) : DeviceMonitor × Option Exn :=
  let st1 := touch st i
  match tokenize (statsLine fs st i) with
  | .error e => (st1, some e)
  | .ok queue_length =>
    let led_idx := ledIndex st i
    let st2 := touch (touch st1 i) led_idx
    if st.led_enabled_ led_idx && st.leds_.isSome then
      if queue_length > 0 then
        (ledSet (ledSet st2 .LED_BLUE led_idx true) .LED_RED led_idx true, none)
      else
        (ledSet (ledSet st2 .LED_BLUE led_idx true) .LED_RED led_idx false, none)
    else (st2, none)

/-- The polling loop over the disk numbers `is`, left at the first exception. -/
def pollDisks (fs : FileSystem) : DeviceMonitor → List Nat → DeviceMonitor × Option Exn
  | st, [] => (st, none)
  | st, i :: is =>
    match pollDisk fs st i with
    | (st1, none) => pollDisks fs st1 is
    | (st1, some e) => (st1, some e)

/-- Lines 155-200: one activity polling pass, `for i in 0 .. num_disks_ - 1`. -/
def pollPass (fs : FileSystem) (st : DeviceMonitor) : DeviceMonitor × Option Exn :=
  pollDisks fs st (List.range st.num_disks_)

/-- The test `0 == strcasecmp(a, b)`. -/
def strcasecmp_eq (a b : String) : Bool :=
  a.toList.map Char.toLower == b.toList.map Char.toLower

/-- Outcome of the `pselect` call of one loop iteration. -/
inductive WaitResult where
  /-- The call failed, `res < 0`; the flag says whether `errno` is `EINTR`. -/
  | failed (eintr : Bool)
  /-- The call succeeded and the monitor descriptor is readable; the argument
  is what `udev_monitor_receive_device` returns (`none` is the null pointer). -/
  | ready (device : Option udev_device)
  /-- The call succeeded and the monitor descriptor is not readable. -/
  | timeout

/-- What one loop iteration of `Main` receives from outside. -/
structure Tick where
  wait : WaitResult
  fs : FileSystem

/-- How `Main` is left. -/
inductive Exit where
  | returned
  | threw (e : Exn)
  deriving DecidableEq, Repr

/-- Lines 139-150: dispatch on the action of a received device. -/
def dispatch (st : DeviceMonitor) (device : udev_device) : DeviceMonitor :=
  match device.action with
  | none => st
  | some str =>
    if strcasecmp_eq str "add" then deviceAdded_ st device
    else if strcasecmp_eq str "remove" then deviceRemove_ st device
    else st

/-- Lines 153-201: the polling part of one iteration. -/
def pollPhase (activity : Bool) (st : DeviceMonitor) (fs : FileSystem) :
    DeviceMonitor × Option Exit :=
  if activity then
    match pollPass fs st with
    | (st1, none) => (st1, none)
    | (st1, some e) => (st1, some (.threw e))
  else (st, none)

/-- Lines 120-203: one iteration of the loop of `Main`. The second component
is `none` when the loop goes on to its next iteration. -/
def mainIter (activity : Bool) (st : DeviceMonitor) (t : Tick) : DeviceMonitor × Option Exit :=
  match t.wait with
  | .failed eintr =>
    if eintr then (st, some .returned) else (st, some (.threw (.ErrnoException "select")))
  | .ready none => (st, some .returned)
  | .ready (some device) =>
    match device.scsi_host with
    | none => (st, some .returned)
    | some _ => pollPhase activity (dispatch st device) t.fs
  | .timeout => pollPhase activity st t.fs

/-- Lines 94-205: `Main` run against the sequence of wait results and file
system snapshots of its iterations. The second component is `none` when the
loop is still running after the last of them. -/
def Main (activity : Bool) : DeviceMonitor → List Tick → DeviceMonitor × Option Exit
  | st, [] => (st, none)
  | st, t :: ts =>
    match mainIter activity st t with
    | (st1, none) => Main activity st1 ts
    | (st1, some e) => (st1, some e)

end DeviceMonitor

/-! ## Proof-side helpers for the tokenizer -/

/-- The leading spaces of a list. -/
def spacesOf (l : List Char) : List Char := l.takeWhile (fun c => c == ' ')

/-- What follows the leading spaces. -/
def afterSpaces (l : List Char) : List Char := l.dropWhile (fun c => c == ' ')

/-- The leading run of characters other than the space. -/
def wordOf (l : List Char) : List Char := l.takeWhile (fun c => c != ' ')

/-- What follows the leading run of characters other than the space. -/
def afterWord (l : List Char) : List Char := l.dropWhile (fun c => c != ' ')

/-- What the tokenizer computes from the list of fields that lie after the
current position when `n` iterations remain before `tok` reaches
`queue_tok`: the `n`-th of them is converted; when exactly `n - 1` are left
`substr` throws; when fewer are left the loop ends with `queue_length = 0`. -/
def expected : List (List Char) → Nat → Except Exn Int
  | _, 0 => .ok 0
  | [], 1 => .error .out_of_range
  | [], _ + 2 => .ok 0
  | w :: _, 1 => .ok (atoi w)
  | _ :: F, n + 2 => expected F (n + 1)

/-- Whether `atoi` finds a decimal number at the start of a token: after
white space and one optional sign comes a digit. -/
def startsWithNumber (w : List Char) : Bool :=
  match w.dropWhile isspace with
  | [] => false
  | c :: cs =>
    if c = '-' ∨ c = '+' then
      match cs with
      | [] => false
      | d :: _ => isdigit d
    else isdigit c

/-! ## Concrete devices and states used in the examples -/

/-- A disk on the internal controller, in bay 0, as an add event reports it. -/
def sda : udev_device :=
  { syspath := "/sys/block/sda", devnode := "/dev/sda", action := some "add",
    scsi_host := some { parent_subsystem := some "pci" } }

/-- A disk whose device node is not in the slot mapping and which has no
scsi_host ancestor. -/
def nvme : udev_device :=
  { syspath := "/sys/block/nvme0n1", devnode := "/dev/nvme0n1", action := some "add",
    scsi_host := none }

/-- A disk on the internal controller whose device node is not in the slot
mapping. -/
def sde : udev_device :=
  { syspath := "/sys/block/sde", devnode := "/dev/sde", action := some "add",
    scsi_host := some { parent_subsystem := some "pci" } }

/-- A file system whose only file is the stats source of `sda`, holding `line`. -/
def sdaStats (line : String) : FileSystem :=
  fun path => if path = "/sys/block/sda/stat" then some line.toList else none

/-- A freshly constructed monitor with an LED driver attached and all
enabled flags off. -/
def fresh : DeviceMonitor :=
  { DeviceMonitor.create (fun _ => 0) (fun _ => false) with leds_ := some [] }

/-- The monitor after enumeration found `sda`; the driver's call record is
cleared so that later calls stand out. -/
def tracking : DeviceMonitor :=
  { DeviceMonitor.enumDevices_ (sdaStats "") fresh [some sda] with leds_ := some [] }

/-- The monitor after enumeration found `sda` and the disk was then removed:
the disk is tracked, its slot is disabled, and both lamps of slot 0 are off. -/
def absent : DeviceMonitor :=
  DeviceMonitor.deviceRemove_ (DeviceMonitor.enumDevices_ (sdaStats "") fresh [some sda]) sda

/-! ## The invariant of the tracked-disk table -/

/-- The tracked-disk table is within its bounds: at most 4 tracked disks,
every index used so far on a member array is below 4, every recorded slot
index is below 4, and no two tracked entries share a slot index. -/
def TableInv (st : DeviceMonitor) : Prop :=
  st.num_disks_ ≤ 4 ∧
    (∀ k ∈ st.idx_trace, k < 4) ∧
    (∀ i, i < st.num_disks_ → st.leds_idx_ i < 4) ∧
    (∀ i j, i < st.num_disks_ → j < st.num_disks_ → st.leds_idx_ i = st.leds_idx_ j → i = j)

/-- The device nodes of the devices of an enumeration list. -/
def devnodes (devs : List (Option udev_device)) : List String :=
  devs.filterMap (fun o => o.map (fun d => d.devnode))

/-- The iterations of `Main` in which the wait times out, one for each file
system snapshot: each of them is one activity polling pass. -/
def pollTicks (fss : List FileSystem) : List DeviceMonitor.Tick :=
  fss.map (fun fs => { wait := .timeout, fs := fs })

open DeviceMonitor

/-! ## The tokenizer as a function of the fields of the line -/

theorem spacesOf_append_afterSpaces (l : List Char) : spacesOf l ++ afterSpaces l = l :=
  List.takeWhile_append_dropWhile _ l

theorem wordOf_append_afterWord (l : List Char) : wordOf l ++ afterWord l = l :=
  List.takeWhile_append_dropWhile _ l

@[simp]
theorem spacesOf_nil : spacesOf [] = [] := rfl
@[simp]
theorem afterSpaces_nil : afterSpaces [] = [] := rfl
@[simp]
theorem wordOf_nil : wordOf [] = [] := rfl
@[simp]
theorem afterWord_nil : afterWord [] = [] := rfl

@[simp]
theorem spacesOf_cons_space (cs : List Char) : spacesOf (' ' :: cs) = ' ' :: spacesOf cs := by
  simp [spacesOf, List.takeWhile_cons]

theorem spacesOf_cons_ne {c : Char} (h : c ≠ ' ') (cs : List Char) : spacesOf (c :: cs) = [] := by
  simp [spacesOf, List.takeWhile_cons, h]

@[simp]
theorem afterSpaces_cons_space (cs : List Char) : afterSpaces (' ' :: cs) = afterSpaces cs := by
  simp [afterSpaces, List.dropWhile_cons]

theorem afterSpaces_cons_ne {c : Char} (h : c ≠ ' ') (cs : List Char) :
    afterSpaces (c :: cs) = c :: cs := by
  simp [afterSpaces, List.dropWhile_cons, h]

@[simp]
theorem wordOf_cons_space (cs : List Char) : wordOf (' ' :: cs) = [] := by
  simp [wordOf, List.takeWhile_cons]

theorem wordOf_cons_ne {c : Char} (h : c ≠ ' ') (cs : List Char) :
    wordOf (c :: cs) = c :: wordOf cs := by
  simp [wordOf, List.takeWhile_cons, h]

@[simp]
theorem afterWord_cons_space (cs : List Char) : afterWord (' ' :: cs) = ' ' :: cs := by
  simp [afterWord, List.dropWhile_cons]

theorem afterWord_cons_ne {c : Char} (h : c ≠ ' ') (cs : List Char) :
    afterWord (c :: cs) = afterWord cs := by
  simp [afterWord, List.dropWhile_cons, h]

theorem afterWord_head (l : List Char) : afterWord l = [] ∨ ∃ r, afterWord l = ' ' :: r := by
  induction l with
  | nil => left; rfl
  | cons c cs ih =>
    by_cases h : c = ' '
    · subst h; right; exact ⟨cs, by simp⟩
    · rw [afterWord_cons_ne h]; exact ih

theorem afterSpaces_head (l : List Char) :
    afterSpaces l = [] ∨ ∃ c r, c ≠ ' ' ∧ afterSpaces l = c :: r := by
  induction l with
  | nil => left; rfl
  | cons c cs ih =>
    by_cases h : c = ' '
    · subst h; simpa using ih
    · right; exact ⟨c, cs, h, afterSpaces_cons_ne h cs⟩

theorem firstIdx_ne_space (l : List Char) :
    firstIdx (fun c => c != ' ') l =
      if afterSpaces l = [] then none else some (spacesOf l).length := by
  induction l with
  | nil => rfl
  | cons c cs ih =>
    by_cases h : c = ' '
    · subst h
      simp only [firstIdx, afterSpaces_cons_space, spacesOf_cons_space, ih]
      simp only [bne_self_eq_false, Bool.false_eq_true, ↓reduceIte, List.length_cons]
      split <;> simp
    · simp [firstIdx, afterSpaces_cons_ne h, spacesOf_cons_ne h, h]

theorem firstIdx_eq_space (l : List Char) :
    firstIdx (fun c => c == ' ') l =
      if afterWord l = [] then none else some (wordOf l).length := by
  induction l with
  | nil => rfl
  | cons c cs ih =>
    by_cases h : c = ' '
    · subst h
      simp [firstIdx]
    · simp only [firstIdx, afterWord_cons_ne h, wordOf_cons_ne h, ih]
      simp only [beq_iff_eq, h, ↓reduceIte, List.length_cons]
      split <;> simp

theorem splitSpaces_eq (l : List Char) :
    splitSpaces l = wordOf l ::
      (match afterWord l with
        | [] => []
        | _ :: r => splitSpaces r) := by
  induction l with
  | nil => rfl
  | cons c cs ih =>
    by_cases h : c = ' '
    · subst h; simp [splitSpaces]
    · rw [splitSpaces, if_neg h, ih, wordOf_cons_ne h, afterWord_cons_ne h]

theorem fields_nil : fields [] = [] := rfl

theorem fields_cons_space (cs : List Char) : fields (' ' :: cs) = fields cs := by
  simp [fields, splitSpaces]

theorem fields_cons_ne {c : Char} (h : c ≠ ' ') (cs : List Char) :
    fields (c :: cs) = wordOf (c :: cs) :: fields (afterWord (c :: cs)) := by
  unfold fields
  rw [splitSpaces_eq (c :: cs)]
  rw [List.filter_cons_of_pos (by simp [wordOf_cons_ne h])]
  congr 1
  rcases afterWord_head (c :: cs) with h0 | ⟨r, h0⟩
  · rw [h0]; rfl
  · rw [h0]; simp [splitSpaces]

theorem fields_afterSpaces (l : List Char) : fields (afterSpaces l) = fields l := by
  induction l with
  | nil => rfl
  | cons c cs ih =>
    by_cases h : c = ' '
    · subst h; rw [afterSpaces_cons_space, fields_cons_space, ih]
    · rw [afterSpaces_cons_ne h]

theorem fields_of_afterSpaces_nil {l : List Char} (h : afterSpaces l = []) : fields l = [] := by
  rw [← fields_afterSpaces, h]; rfl

theorem fields_of_afterSpaces_ne {l : List Char} (h : afterSpaces l ≠ []) :
    wordOf (afterSpaces l) ≠ [] ∧
      fields l = wordOf (afterSpaces l) :: fields (afterWord (afterSpaces l)) := by
  rcases afterSpaces_head l with h0 | ⟨c, r, hc, h0⟩
  · exact absurd h0 h
  · rw [← fields_afterSpaces l, h0]
    exact ⟨by simp [wordOf_cons_ne hc], fields_cons_ne hc r⟩

theorem drop_npos {s : List Char} (h : s.length < npos) : s.drop npos = [] :=
  List.drop_eq_nil_of_le (Nat.le_of_lt h)

theorem find_first_not_of_npos {s : List Char} (h : s.length < npos) :
    find_first_not_of s npos = npos := by
  simp [find_first_not_of, drop_npos h, firstIdx]

theorem find_first_of_npos {s : List Char} (h : s.length < npos) :
    find_first_of s npos = npos := by
  simp [find_first_of, drop_npos h, firstIdx]

theorem find_first_not_of_none (pre r : List Char) (h : afterSpaces r = []) :
    find_first_not_of (pre ++ r) pre.length = npos := by
  simp [find_first_not_of, firstIdx_ne_space, h]

theorem find_first_not_of_some (pre r : List Char) (h : afterSpaces r ≠ []) :
    find_first_not_of (pre ++ r) pre.length = pre.length + (spacesOf r).length := by
  simp [find_first_not_of, firstIdx_ne_space, h]

theorem find_first_of_none (pre r : List Char) (h : afterWord r = []) :
    find_first_of (pre ++ r) pre.length = npos := by
  simp [find_first_of, firstIdx_eq_space, h]

theorem find_first_of_some (pre r : List Char) (h : afterWord r ≠ []) :
    find_first_of (pre ++ r) pre.length = pre.length + (wordOf r).length := by
  simp [find_first_of, firstIdx_eq_space, h]

theorem expected_nil_of_two_le {n : Nat} (h : 2 ≤ n) : expected [] n = .ok 0 := by
  obtain ⟨m, rfl⟩ : ∃ m, n = m + 2 := ⟨n - 2, by omega⟩
  rfl

theorem expected_cons_of_two_le (w : List Char) (F : List (List Char)) {n : Nat} (h : 2 ≤ n) :
    expected (w :: F) n = expected F (n - 1) := by
  obtain ⟨m, rfl⟩ : ∃ m, n = m + 2 := ⟨n - 2, by omega⟩
  rfl

theorem npos_eq : npos = 18446744073709551615 := by decide

theorem size_sub_add (a b : Nat) (h : a + b < npos) : size_sub (a + b) a = b := by
  rw [npos_eq] at h
  unfold size_sub
  omega

theorem size_sub_npos (a : Nat) (h : a < npos) : size_sub npos a = npos - a := by
  rw [npos_eq] at h ⊢
  unfold size_sub
  omega

theorem substr_npos {s : List Char} (h : s.length < npos) (n : Nat) :
    substr s npos n = .error .out_of_range := by
  simp [substr, h]

theorem substr_mid (pre w r : List Char) (n : Nat) (h : r = [] ∧ w.length ≤ n ∨ n = w.length) :
    substr (pre ++ w ++ r) pre.length n = .ok w := by
  unfold substr
  rw [if_neg (by simp)]
  congr 1
  rw [List.append_assoc, List.drop_left]
  rcases h with ⟨rfl, h⟩ | rfl
  · rw [List.append_nil]; exact List.take_of_length_le h
  · exact List.take_left _ _

theorem tokenLoop_spec (s : List Char) (hs : s.length < npos) :
    ∀ (fuel tok : Nat) (pre r : List Char) (last pos : Nat),
      s = pre ++ r → (r = [] ∨ ∃ r0, r = ' ' :: r0) →
      (pos = pre.length ∨ (r = [] ∧ pos = npos)) → last ≠ npos →
      tok < queue_tok → queue_tok ≤ tok + fuel →
      tokenLoop s fuel tok last pos = some (expected (fields r) (queue_tok - tok)) := by
  intro fuel
  induction fuel with
  | zero => intro tok pre r last pos _ _ _ _ h1 h2; omega
  | succ fuel ih =>
    intro tok pre r last pos hsplit hhead hpos hlast htok hfuel
    rw [tokenLoop, if_pos (Or.inr hlast)]
    by_cases hF : afterSpaces r = []
    · -- no field is left
      have hlast1 : find_first_not_of s pos = npos := by
        rcases hpos with rfl | ⟨_, rfl⟩
        · rw [hsplit]; exact find_first_not_of_none pre r hF
        · exact find_first_not_of_npos hs
      simp only [hlast1, find_first_of_npos hs, fields_of_afterSpaces_nil hF]
      by_cases h8 : tok + 1 = queue_tok
      · rw [if_pos h8, substr_npos hs]
        have : queue_tok - tok = 1 := by omega
        rw [this]; rfl
      · rw [if_neg h8]
        obtain ⟨f, rfl⟩ : ∃ f, fuel = f + 1 := ⟨fuel - 1, by omega⟩
        rw [tokenLoop, if_neg (by simp), expected_nil_of_two_le (by omega)]
    · -- a field is left
      have hr : r ≠ [] := by rintro rfl; exact hF rfl
      have hpos0 : pos = pre.length := by
        rcases hpos with h | ⟨h, _⟩
        · exact h
        · exact absurd h hr
      obtain ⟨hw, hfields⟩ := fields_of_afterSpaces_ne hF
      have hs1 : s = (pre ++ spacesOf r) ++ afterSpaces r := by
        rw [List.append_assoc, spacesOf_append_afterSpaces]; exact hsplit
      have hs2 : s = (pre ++ spacesOf r) ++ wordOf (afterSpaces r) ++ afterWord (afterSpaces r) := by
        rw [List.append_assoc _ (wordOf _), wordOf_append_afterWord]; exact hs1
      have hlen : (pre ++ spacesOf r).length + (wordOf (afterSpaces r)).length ≤ s.length := by
        rw [congrArg List.length hs2]; simp only [List.length_append]; omega
      have hlast1 : find_first_not_of s pos = (pre ++ spacesOf r).length := by
        rw [hpos0, List.length_append]
        conv_lhs => rw [hsplit]
        exact find_first_not_of_some pre r hF
      have hlast1ne : (pre ++ spacesOf r).length ≠ npos := by omega
      have hpos1 : find_first_of s (pre ++ spacesOf r).length =
          (if afterWord (afterSpaces r) = [] then npos
            else (pre ++ spacesOf r).length + (wordOf (afterSpaces r)).length) := by
        conv_lhs => rw [hs1]
        split
        · next h => exact find_first_of_none _ _ h
        · next h => exact find_first_of_some _ _ h
      simp only [hlast1, hpos1, hfields]
      by_cases h8 : tok + 1 = queue_tok
      · rw [if_pos h8]
        have hsub : substr s (pre ++ spacesOf r).length
            (size_sub (if afterWord (afterSpaces r) = [] then npos
              else (pre ++ spacesOf r).length + (wordOf (afterSpaces r)).length)
              (pre ++ spacesOf r).length) = .ok (wordOf (afterSpaces r)) := by
          conv_lhs => rw [hs2]
          apply substr_mid
          split
          · next h =>
            left
            refine ⟨h, ?_⟩
            rw [size_sub_npos _ (by omega)]
            omega
          · right
            exact size_sub_add _ _ (by omega)
        rw [hsub]
        have : queue_tok - tok = 1 := by omega
        rw [this]; rfl
      · rw [if_neg h8, expected_cons_of_two_le _ _ (by omega)]
        have := ih (tok + 1) (pre ++ spacesOf r ++ wordOf (afterSpaces r))
          (afterWord (afterSpaces r)) (pre ++ spacesOf r).length
          (if afterWord (afterSpaces r) = [] then npos
            else (pre ++ spacesOf r).length + (wordOf (afterSpaces r)).length)
          hs2 (afterWord_head _)
          (by
            split
            · next h => right; exact ⟨h, rfl⟩
            · left; simp only [List.length_append])
          hlast1ne (by omega) (by omega)
        rw [this]
        congr 2

theorem tokenLoop_start (s : List Char) (hs : s.length < npos) :
    tokenLoop s queue_tok 0 (find_first_not_of s 0) (find_first_of s (find_first_not_of s 0)) =
      some (expected (fields s) (queue_tok + 1)) := by
  by_cases hF : afterSpaces s = []
  · have h1 : find_first_not_of s 0 = npos := find_first_not_of_none [] s hF
    rw [h1, find_first_of_npos hs, fields_of_afterSpaces_nil hF]
    rfl
  · obtain ⟨hw, hfields⟩ := fields_of_afterSpaces_ne hF
    have hs1 : s = spacesOf s ++ afterSpaces s := (spacesOf_append_afterSpaces s).symm
    have hs2 : s = spacesOf s ++ wordOf (afterSpaces s) ++ afterWord (afterSpaces s) := by
      rw [List.append_assoc, wordOf_append_afterWord]; exact hs1
    have hlen : (spacesOf s).length + (wordOf (afterSpaces s)).length ≤ s.length := by
      rw [congrArg List.length hs2]; simp only [List.length_append]; omega
    have h1 : find_first_not_of s 0 = (spacesOf s).length := by
      have := find_first_not_of_some [] s hF
      simpa using this
    have h2 : find_first_of s (spacesOf s).length =
        (if afterWord (afterSpaces s) = [] then npos
          else (spacesOf s).length + (wordOf (afterSpaces s)).length) := by
      split
      · next h =>
        have := find_first_of_none (spacesOf s) _ h
        rwa [spacesOf_append_afterSpaces] at this
      · next h =>
        have := find_first_of_some (spacesOf s) _ h
        rwa [spacesOf_append_afterSpaces] at this
    rw [h1, h2, hfields]
    have := tokenLoop_spec s hs queue_tok 0 (spacesOf s ++ wordOf (afterSpaces s))
      (afterWord (afterSpaces s)) (spacesOf s).length
      (if afterWord (afterSpaces s) = [] then npos
        else (spacesOf s).length + (wordOf (afterSpaces s)).length)
      hs2 (afterWord_head _)
      (by
        split
        · next h => right; exact ⟨h, rfl⟩
        · left; simp only [List.length_append])
      (by omega) (by decide) (by omega)
    rw [this]
    rfl

/-- The tokenizer as a function of the fields of the line. -/
theorem tokenize_eq (s : List Char) (hs : s.length < npos) :
    tokenize s = expected (fields s) (queue_tok + 1) := by
  unfold tokenize
  rw [tokenLoop_start s hs]
  rfl

theorem expected_get : ∀ (F : List (List Char)) (n : Nat) (w : List Char),
    F[n]? = some w → expected F (n + 1) = .ok (atoi w)
  | [], n, w, h => by simp at h
  | v :: F, 0, w, h => by
    simp at h; subst h; rfl
  | v :: F, n + 1, w, h => by
    rw [List.getElem?_cons_succ] at h
    exact expected_get F n w h

theorem expected_length : ∀ (F : List (List Char)) (n : Nat),
    F.length = n → expected F (n + 1) = .error .out_of_range
  | [], 0, _ => rfl
  | [], n + 1, h => by simp at h
  | v :: F, 0, h => by simp at h
  | v :: F, n + 1, h => by
    have : F.length = n := by simpa using h
    exact expected_length F n this

theorem expected_short : ∀ (F : List (List Char)) (n : Nat),
    F.length < n → expected F (n + 1) = .ok 0
  | [], 0, h => by simp at h
  | [], n + 1, _ => rfl
  | v :: F, 0, h => by simp at h
  | v :: F, n + 1, h => by
    have : F.length < n := by simpa using h
    exact expected_short F n this

/-- The loop of the tokenizer never runs out of the fuel `tokenize` gives it. -/
theorem tokenLoop_isSome (s : List Char) : ∀ (fuel tok last pos : Nat),
    tok < queue_tok → queue_tok ≤ tok + fuel → (tokenLoop s fuel tok last pos).isSome = true := by
  intro fuel
  induction fuel with
  | zero => intro tok _ _ h1 h2; omega
  | succ fuel ih =>
    intro tok last pos h1 h2
    rw [tokenLoop]
    split
    · simp only []
      split
      · split <;> rfl
      · next h8 => exact ih _ _ _ (by omega) (by omega)
    · rfl

/-- The fuel `tokenize` gives the loop is enough for every string. -/
theorem tokenize_fuel_enough (s : List Char) :
    (tokenLoop s queue_tok 0 (find_first_not_of s 0)
      (find_first_of s (find_first_not_of s 0))).isSome = true :=
  tokenLoop_isSome s queue_tok 0 _ _ (by decide) (by decide)

theorem statsLine_length (fs : FileSystem) (st : DeviceMonitor) (i : Nat) :
    (statsLine fs st i).length < npos := by
  have h1 : (statsLine fs st i).length ≤ (getline (fs (statsFile st i)) 255).length :=
    (List.takeWhile_sublist _).length_le
  have h2 : (getline (fs (statsFile st i)) 255).length ≤ 254 := by
    unfold getline
    split
    · simp
    · simp only [List.length_take]; omega
  rw [npos_eq]; omega

/-- The value the polling pass computes from a stats line, by the number of
its fields. -/
theorem tokenize_statsLine (fs : FileSystem) (st : DeviceMonitor) (i : Nat) :
    tokenize (statsLine fs st i) = expected (fields (statsLine fs st i)) (queue_tok + 1) :=
  tokenize_eq _ (statsLine_length fs st i)

theorem digitsValue_of_not_digit (l : List Char) (acc : Nat)
    (h : ∀ c cs, l = c :: cs → isdigit c = false) : digitsValue l acc = acc := by
  cases l with
  | nil => rfl
  | cons c cs => simp [digitsValue, h c cs rfl]

theorem atoi_of_not_startsWithNumber (w : List Char) (h : startsWithNumber w = false) :
    atoi w = 0 := by
  unfold startsWithNumber at h
  unfold atoi strtol
  split
  · rfl
  · next c cs heq =>
    rw [heq] at h
    simp only [] at h
    by_cases hm : c = '-'
    · rw [if_pos hm]
      rw [if_pos (Or.inl hm)] at h
      rw [digitsValue_of_not_digit cs 0 (by intro d ds hd; subst hd; simpa using h)]
      decide
    · rw [if_neg hm]
      by_cases hp : c = '+'
      · rw [if_pos hp]
        rw [if_pos (Or.inr hp)] at h
        rw [digitsValue_of_not_digit cs 0 (by intro d ds hd; subst hd; simpa using h)]
        decide
      · rw [if_neg hp]
        rw [if_neg (by simp [hm, hp])] at h
        rw [digitsValue_of_not_digit (c :: cs) 0 (by intro d ds hd; cases hd; exact h)]
        decide

theorem pollDisk_of_ok (fs : FileSystem) (st : DeviceMonitor) (i : Nat) (q : Int)
    (calls : List LedCall) (hq : tokenize (statsLine fs st i) = .ok q)
    (hen : st.led_enabled_ (ledIndex st i) = true) (hleds : st.leds_ = some calls) :
    (pollDisk fs st i).2 = none ∧
      (pollDisk fs st i).1.leds_ =
        some (calls ++ [⟨.LED_BLUE, ledIndex st i, true⟩,
          ⟨.LED_RED, ledIndex st i, decide (0 < q)⟩]) := by
  unfold pollDisk
  rw [hq]
  simp only [hen, hleds, Option.isSome_some, Bool.and_self, ↓reduceIte]
  by_cases h : q > 0
  · simp [h, ledSet, touch, hleds]
  · simp [h, ledSet, touch, hleds]

/-! ## Device added, device removed -/

/-- C1: for a device with a scsi_host ancestor whose parent is on the pci
subsystem and whose device node the slot mapping sends to slot `S`, with a
driver attached, `deviceAdded_` issues exactly one driver call,
`Set(LED_BLUE, S, true)`, sets the enabled flag of `S` and leaves the enabled
flag of every other slot as it was. -/
theorem C1_add_issues_one_presence_call (st : DeviceMonitor) (device : udev_device)
    (host : ScsiHost) (S : Nat) (calls : List LedCall)
    (hhost : device.scsi_host = some host) (hpci : host.parent_subsystem = some "pci")
    (hmap : st.disk_led_map_ device.devnode = some S) (hleds : st.leds_ = some calls) :
    (deviceAdded_ st device).leds_ = some (calls ++ [⟨.LED_BLUE, S, true⟩]) ∧
      (deviceAdded_ st device).led_enabled_ S = true ∧
      ∀ j, j ≠ S → (deviceAdded_ st device).led_enabled_ j = st.led_enabled_ j := by
  unfold deviceAdded_ deviceChanged_
  simp only [hhost, hpci, hmap, ne_eq, not_true_eq_false, ↓reduceIte]
  refine ⟨by simp [ledSet, touch, hleds], by simp [ledSet, touch], ?_⟩
  intro j hj
  simp [ledSet, touch, Function.update, hj]

/-- C1 at the disk `sda` on a freshly constructed monitor. -/
theorem C1_add_issues_one_presence_call_witness :
    (deviceAdded_ fresh sda).leds_ = some ([] ++ [⟨.LED_BLUE, 0, true⟩]) ∧
      (deviceAdded_ fresh sda).led_enabled_ 0 = true ∧
      ∀ j, j ≠ 0 → (deviceAdded_ fresh sda).led_enabled_ j = fresh.led_enabled_ j :=
  C1_add_issues_one_presence_call fresh sda ⟨some "pci"⟩ 0 [] rfl rfl (by decide) rfl

/-- C2: with the slot mapping of the constructor, for a device whose device
node is none of "/dev/sda", "/dev/sdb", "/dev/sdc", "/dev/sdd", the add and
the remove handler return the monitor as it was: no driver call, no enabled
flag and no entry of the tracked-disk table changes. -/
theorem C2_unmapped_device_is_ignored (st : DeviceMonitor) (device : udev_device)
    (hmap : st.disk_led_map_ = slotMapping)
    (hnode : device.devnode ∉ ["/dev/sda", "/dev/sdb", "/dev/sdc", "/dev/sdd"]) :
    deviceAdded_ st device = st ∧ deviceRemove_ st device = st := by
  have hnone : st.disk_led_map_ device.devnode = none := by
    simp only [List.mem_cons, List.mem_singleton, not_or, List.not_mem_nil, or_false] at hnode
    obtain ⟨h0, h1, h2, h3⟩ := hnode
    simp [hmap, slotMapping, mapInsert, h0, h1, h2, h3]
  constructor <;>
  · simp only [deviceAdded_, deviceRemove_]
    unfold deviceChanged_
    rw [hnone]
    split
    · rfl
    · split
      · rfl
      · split <;> rfl

/-- C2 at the disk `sde` on a freshly constructed monitor. -/
theorem C2_unmapped_device_is_ignored_witness :
    deviceAdded_ fresh sde = fresh ∧ deviceRemove_ fresh sde = fresh :=
  C2_unmapped_device_is_ignored fresh sde rfl (by decide)

/-! ## The activity polling pass -/

/-- C3, as stated, fails: on the line " 0 0 0 0 0 0 0 3 0 0 0" the polling pass
drives the activity indicator of the enabled disk to idle, not to active. -/
theorem C3_eighth_field_is_not_read :
    (pollPass (sdaStats " 0 0 0 0 0 0 0 3 0 0 0") tracking).1.leds_ =
      some [⟨.LED_BLUE, 0, true⟩, ⟨.LED_RED, 0, false⟩] := by
  decide

/-- C3, amended: the value compared with zero is `atoi` of the 9th
space-separated field (1-based) of the stats line. For an enabled tracked disk
with a driver attached and a line with at least 9 fields, the loop body
completes and issues `Set(LED_BLUE, slot, true)` followed by
`Set(LED_RED, slot, b)`, where `b` says whether `atoi` of the 9th field is
positive. -/
theorem C3_activity_from_ninth_field (fs : FileSystem) (st : DeviceMonitor) (i : Nat)
    (calls : List LedCall) (w : List Char)
    (hen : st.led_enabled_ (ledIndex st i) = true) (hleds : st.leds_ = some calls)
    (h9 : (fields (statsLine fs st i))[8]? = some w) :
    (pollDisk fs st i).2 = none ∧
      (pollDisk fs st i).1.leds_ =
        some (calls ++ [⟨.LED_BLUE, ledIndex st i, true⟩,
          ⟨.LED_RED, ledIndex st i, decide (0 < atoi w)⟩]) := by
  have hq : tokenize (statsLine fs st i) = .ok (atoi w) := by
    rw [tokenize_statsLine]
    exact expected_get _ 8 w h9
  exact pollDisk_of_ok fs st i (atoi w) calls hq hen hleds

/-- C3, amended, at the line " 0 0 0 0 0 0 0 0 3 0 0", whose 9th field is 3. -/
theorem C3_activity_from_ninth_field_witness :
    (pollDisk (sdaStats " 0 0 0 0 0 0 0 0 3 0 0") tracking 0).2 = none ∧
      (pollDisk (sdaStats " 0 0 0 0 0 0 0 0 3 0 0") tracking 0).1.leds_ =
        some ([] ++ [⟨.LED_BLUE, ledIndex tracking 0, true⟩,
          ⟨.LED_RED, ledIndex tracking 0, decide (0 < atoi ['3'])⟩]) :=
  C3_activity_from_ninth_field (sdaStats " 0 0 0 0 0 0 0 0 3 0 0") tracking 0 [] ['3']
    (by decide) rfl (by decide)

/-- C4: the code at a line of exactly 8 fields. In the 8th iteration of the
tokenizer `last` is `npos`, `substr` throws `std::out_of_range`, and the
exception leaves `Main`. -/
theorem C4_eight_fields_throw :
    tokenize "1 2 3 4 5 6 7 8".toList = .error .out_of_range ∧
      (Main true tracking
        [⟨.timeout, sdaStats "1 2 3 4 5 6 7 8"⟩, ⟨.timeout, sdaStats ""⟩]).2 =
        some (.threw .out_of_range) := by
  decide

/-- Every line of exactly 8 fields makes the tokenizer throw. -/
theorem tokenize_throws_of_eight_fields (fs : FileSystem) (st : DeviceMonitor) (i : Nat)
    (h : (fields (statsLine fs st i)).length = 8) :
    tokenize (statsLine fs st i) = .error .out_of_range := by
  rw [tokenize_statsLine]
  exact expected_length _ 8 h

/-- A line whose number of fields is not 8 never makes the tokenizer throw. -/
theorem tokenize_ok_of_not_eight_fields (fs : FileSystem) (st : DeviceMonitor) (i : Nat)
    (h : (fields (statsLine fs st i)).length ≠ 8) :
    ∃ q, tokenize (statsLine fs st i) = .ok q := by
  rw [tokenize_statsLine]
  rcases Nat.lt_or_ge (fields (statsLine fs st i)).length 8 with h1 | h1
  · exact ⟨0, expected_short _ 8 h1⟩
  · have h2 : 8 < (fields (statsLine fs st i)).length := by omega
    obtain ⟨w, hw⟩ : ∃ w, (fields (statsLine fs st i))[8]? = some w :=
      ⟨_, List.getElem?_eq_getElem h2⟩
    exact ⟨atoi w, expected_get _ 8 w hw⟩

/-- C5, as stated, fails: on an empty stats line the polling pass does issue an
activity-indicator call for the enabled disk, `Set(LED_RED, 0, false)`. -/
theorem C5_short_line_sets_idle :
    (pollPass (sdaStats "") tracking).1.leds_ =
      some [⟨.LED_BLUE, 0, true⟩, ⟨.LED_RED, 0, false⟩] := by
  decide

/-- C5, amended: for an enabled tracked disk with a driver attached, a stats
line with fewer than 8 fields, or one whose 9th field does not start with a
decimal number, leaves `queue_length` at 0: the loop body completes and issues
`Set(LED_BLUE, slot, true)` followed by `Set(LED_RED, slot, false)`. -/
theorem C5_malformed_line_sets_idle (fs : FileSystem) (st : DeviceMonitor) (i : Nat)
    (calls : List LedCall)
    (hen : st.led_enabled_ (ledIndex st i) = true) (hleds : st.leds_ = some calls)
    (hbad : (fields (statsLine fs st i)).length < 8 ∨
      ∃ w, (fields (statsLine fs st i))[8]? = some w ∧ startsWithNumber w = false) :
    (pollDisk fs st i).2 = none ∧
      (pollDisk fs st i).1.leds_ =
        some (calls ++ [⟨.LED_BLUE, ledIndex st i, true⟩,
          ⟨.LED_RED, ledIndex st i, false⟩]) := by
  have hq : tokenize (statsLine fs st i) = .ok 0 := by
    rw [tokenize_statsLine]
    rcases hbad with h | ⟨w, hw, hn⟩
    · exact expected_short _ 8 h
    · rw [← atoi_of_not_startsWithNumber w hn]
      exact expected_get _ 8 w hw
  simpa using pollDisk_of_ok fs st i 0 calls hq hen hleds

/-- C5, amended, at the line "1 2 3". -/
theorem C5_malformed_line_sets_idle_witness :
    (pollDisk (sdaStats "1 2 3") tracking 0).2 = none ∧
      (pollDisk (sdaStats "1 2 3") tracking 0).1.leds_ =
        some ([] ++ [⟨.LED_BLUE, ledIndex tracking 0, true⟩,
          ⟨.LED_RED, ledIndex tracking 0, false⟩]) :=
  C5_malformed_line_sets_idle (sdaStats "1 2 3") tracking 0 []
    (by decide) rfl (Or.inl (by decide))

/-! ## The invariant of the tracked-disk table is preserved -/

theorem slotMapping_lt {k : String} {S : Nat} (h : slotMapping k = some S) : S < 4 := by
  unfold slotMapping mapInsert at h
  split_ifs at h <;> simp at h <;> omega

theorem slotMapping_inj {a b : String} {S : Nat} (ha : slotMapping a = some S)
    (hb : slotMapping b = some S) : a = b := by
  unfold slotMapping mapInsert at ha hb
  split_ifs at ha hb <;> simp at ha hb <;> first | omega | (subst_vars; rfl)

theorem lt_four_of_fresh_slot (f : Nat → Nat) (n S : Nat) (hlt : ∀ i, i < n → f i < 4)
    (hinj : ∀ i j, i < n → j < n → f i = f j → i = j) (hS : S < 4)
    (hfresh : ∀ i, i < n → f i ≠ S) : n < 4 := by
  have hnd : (S :: (List.range n).map f).Nodup := by
    refine List.nodup_cons.mpr ⟨?_, ?_⟩
    · intro hmem
      obtain ⟨i, hi, hfi⟩ := List.mem_map.mp hmem
      exact hfresh i (List.mem_range.mp hi) hfi
    · refine List.Nodup.map_on ?_ (List.nodup_range n)
      intro x hx y hy hxy
      exact hinj x y (List.mem_range.mp hx) (List.mem_range.mp hy) hxy
  have hsub : (S :: (List.range n).map f) ⊆ List.range 4 := by
    intro x hx
    rcases List.mem_cons.mp hx with rfl | hx
    · exact List.mem_range.mpr hS
    · obtain ⟨i, hi, rfl⟩ := List.mem_map.mp hx
      exact List.mem_range.mpr (hlt i (List.mem_range.mp hi))
  have := (List.subperm_of_subset hnd hsub).length_le
  simp at this
  omega

/-- The add and remove handlers never change the tracked-disk table or the
slot mapping. -/
theorem deviceChanged_table (st : DeviceMonitor) (device : udev_device) (state : Bool) :
    (deviceChanged_ st device state).num_disks_ = st.num_disks_ ∧
      (deviceChanged_ st device state).disk_led_map_ = st.disk_led_map_ ∧
      (deviceChanged_ st device state).stats_files_ = st.stats_files_ ∧
      (deviceChanged_ st device state).leds_idx_ = st.leds_idx_ := by
  unfold deviceChanged_
  split
  · simp
  · split
    · simp
    · split
      · simp
      · split <;> simp [ledSet, touch]

theorem deviceChanged_trace (st : DeviceMonitor) (device : udev_device) (state : Bool)
    (hmap : st.disk_led_map_ = slotMapping) (h : ∀ k ∈ st.idx_trace, k < 4) :
    ∀ k ∈ (deviceChanged_ st device state).idx_trace, k < 4 := by
  unfold deviceChanged_
  split
  · exact h
  · split
    · exact h
    · split
      · exact h
      · split
        · exact h
        · next S hS =>
          rw [hmap] at hS
          intro k hk
          simp only [ledSet, touch, List.mem_append, List.mem_singleton] at hk
          rcases hk with hk | rfl
          · exact h k hk
          · exact slotMapping_lt hS

theorem deviceChanged_inv (st : DeviceMonitor) (device : udev_device) (state : Bool)
    (hmap : st.disk_led_map_ = slotMapping) (h : TableInv st) :
    TableInv (deviceChanged_ st device state) := by
  obtain ⟨h1, h2, h3, h4⟩ := h
  obtain ⟨e1, _, _, e4⟩ := deviceChanged_table st device state
  refine ⟨by rw [e1]; exact h1, deviceChanged_trace st device state hmap h2, ?_, ?_⟩
  · rw [e1, e4]; exact h3
  · rw [e1, e4]; exact h4

theorem pollDisk_error (fs : FileSystem) (st : DeviceMonitor) (i : Nat) (e : Exn)
    (hq : tokenize (statsLine fs st i) = .error e) :
    pollDisk fs st i = (touch st i, some e) := by
  unfold pollDisk
  rw [hq]

theorem pollDisk_ok (fs : FileSystem) (st : DeviceMonitor) (i : Nat) (q : Int)
    (hq : tokenize (statsLine fs st i) = .ok q) :
    pollDisk fs st i =
      (if st.led_enabled_ (ledIndex st i) && st.leds_.isSome then
          ledSet (ledSet (touch (touch (touch st i) i) (ledIndex st i))
            .LED_BLUE (ledIndex st i) true) .LED_RED (ledIndex st i) (decide (0 < q))
        else touch (touch (touch st i) i) (ledIndex st i), none) := by
  unfold pollDisk
  rw [hq]
  simp only []
  by_cases hen : (st.led_enabled_ (ledIndex st i) && st.leds_.isSome) = true
  · by_cases h : q > 0
    · simp [hen, h]
    · simp [hen, h]
  · simp [hen]

/-- The body of the polling loop never changes the tracked-disk table, the
slot mapping or the enabled flags. -/
theorem pollDisk_table (fs : FileSystem) (st : DeviceMonitor) (i : Nat) :
    (pollDisk fs st i).1.num_disks_ = st.num_disks_ ∧
      (pollDisk fs st i).1.disk_led_map_ = st.disk_led_map_ ∧
      (pollDisk fs st i).1.stats_files_ = st.stats_files_ ∧
      (pollDisk fs st i).1.leds_idx_ = st.leds_idx_ ∧
      (pollDisk fs st i).1.led_enabled_ = st.led_enabled_ := by
  cases hq : tokenize (statsLine fs st i) with
  | error e => rw [pollDisk_error fs st i e hq]; simp [touch]
  | ok q =>
    rw [pollDisk_ok fs st i q hq]
    split <;> simp [ledSet, touch]

theorem pollDisk_trace (fs : FileSystem) (st : DeviceMonitor) (i : Nat)
    (hi : i < 4) (hS : st.leds_idx_ i < 4) (h : ∀ k ∈ st.idx_trace, k < 4) :
    ∀ k ∈ (pollDisk fs st i).1.idx_trace, k < 4 := by
  have key : ∀ k, (k ∈ st.idx_trace ∨ k = i ∨ k = st.leds_idx_ i) → k < 4 := by
    intro k hk
    rcases hk with hk | rfl | rfl
    · exact h k hk
    · exact hi
    · exact hS
  cases hq : tokenize (statsLine fs st i) with
  | error e =>
    rw [pollDisk_error fs st i e hq]
    intro k hk
    simp only [touch, List.mem_append, List.mem_singleton] at hk
    exact key k (by tauto)
  | ok q =>
    rw [pollDisk_ok fs st i q hq]
    split <;>
    · intro k hk
      simp only [ledSet, touch, ledIndex, List.mem_append, List.mem_singleton] at hk
      exact key k (by tauto)

theorem pollDisk_inv (fs : FileSystem) (st : DeviceMonitor) (i : Nat)
    (hi : i < st.num_disks_) (h : TableInv st) : TableInv (pollDisk fs st i).1 := by
  obtain ⟨h1, h2, h3, h4⟩ := h
  obtain ⟨e1, _, _, e4, _⟩ := pollDisk_table fs st i
  refine ⟨by rw [e1]; exact h1, pollDisk_trace fs st i (by omega) (h3 i hi) h2, ?_, ?_⟩
  · rw [e1, e4]; exact h3
  · rw [e1, e4]; exact h4

theorem pollDisks_table (fs : FileSystem) : ∀ (is : List Nat) (st : DeviceMonitor),
    (pollDisks fs st is).1.num_disks_ = st.num_disks_ ∧
      (pollDisks fs st is).1.disk_led_map_ = st.disk_led_map_ ∧
      (pollDisks fs st is).1.stats_files_ = st.stats_files_ ∧
      (pollDisks fs st is).1.leds_idx_ = st.leds_idx_ ∧
      (pollDisks fs st is).1.led_enabled_ = st.led_enabled_
  | [], st => by simp [pollDisks]
  | i :: is, st => by
    obtain ⟨e1, e2, e3, e4, e5⟩ := pollDisk_table fs st i
    rw [pollDisks]
    split
    · next st1 heq =>
      rw [heq] at e1 e2 e3 e4 e5
      simp only at e1 e2 e3 e4 e5
      obtain ⟨f1, f2, f3, f4, f5⟩ := pollDisks_table fs is st1
      exact ⟨f1.trans e1, f2.trans e2, f3.trans e3, f4.trans e4, f5.trans e5⟩
    · next st1 e heq =>
      rw [heq] at e1 e2 e3 e4 e5
      exact ⟨e1, e2, e3, e4, e5⟩

theorem pollDisks_inv (fs : FileSystem) : ∀ (is : List Nat) (st : DeviceMonitor),
    (∀ i ∈ is, i < st.num_disks_) → TableInv st → TableInv (pollDisks fs st is).1
  | [], st, _, h => by simpa [pollDisks] using h
  | i :: is, st, hlt, h => by
    have hinv := pollDisk_inv fs st i (hlt i (List.mem_cons_self _ _)) h
    obtain ⟨e1, _⟩ := pollDisk_table fs st i
    rw [pollDisks]
    split
    · next st1 heq =>
      rw [heq] at hinv e1
      simp only at hinv e1
      exact pollDisks_inv fs is st1
        (fun j hj => by rw [e1]; exact hlt j (List.mem_cons_of_mem _ hj)) hinv
    · next st1 e heq =>
      rw [heq] at hinv
      exact hinv

theorem pollPhase_fst (activity : Bool) (st : DeviceMonitor) (fs : FileSystem) :
    (pollPhase activity st fs).1 = if activity then (pollPass fs st).1 else st := by
  unfold pollPhase
  cases activity with
  | false => simp
  | true =>
    simp only [↓reduceIte]
    split <;> next heq => simp [heq]

theorem pollPass_table (fs : FileSystem) (st : DeviceMonitor) :
    (pollPass fs st).1.num_disks_ = st.num_disks_ ∧
      (pollPass fs st).1.disk_led_map_ = st.disk_led_map_ ∧
      (pollPass fs st).1.stats_files_ = st.stats_files_ ∧
      (pollPass fs st).1.leds_idx_ = st.leds_idx_ ∧
      (pollPass fs st).1.led_enabled_ = st.led_enabled_ :=
  pollDisks_table fs _ st

theorem pollPass_inv (fs : FileSystem) (st : DeviceMonitor) (h : TableInv st) :
    TableInv (pollPass fs st).1 :=
  pollDisks_inv fs _ st (fun _ hi => List.mem_range.mp hi) h

theorem pollPhase_table (activity : Bool) (st : DeviceMonitor) (fs : FileSystem) :
    (pollPhase activity st fs).1.num_disks_ = st.num_disks_ ∧
      (pollPhase activity st fs).1.disk_led_map_ = st.disk_led_map_ ∧
      (pollPhase activity st fs).1.stats_files_ = st.stats_files_ ∧
      (pollPhase activity st fs).1.leds_idx_ = st.leds_idx_ ∧
      (pollPhase activity st fs).1.led_enabled_ = st.led_enabled_ := by
  rw [pollPhase_fst]
  split
  · exact pollPass_table fs st
  · simp

theorem pollPhase_inv (activity : Bool) (st : DeviceMonitor) (fs : FileSystem)
    (h : TableInv st) : TableInv (pollPhase activity st fs).1 := by
  rw [pollPhase_fst]
  split
  · exact pollPass_inv fs st h
  · exact h

theorem dispatch_cases (st : DeviceMonitor) (device : udev_device) :
    dispatch st device = st ∨ ∃ state, dispatch st device = deviceChanged_ st device state := by
  unfold dispatch
  split
  · left; rfl
  · split
    · right; exact ⟨true, rfl⟩
    · split
      · right; exact ⟨false, rfl⟩
      · left; rfl

theorem dispatch_table (st : DeviceMonitor) (device : udev_device) :
    (dispatch st device).num_disks_ = st.num_disks_ ∧
      (dispatch st device).disk_led_map_ = st.disk_led_map_ ∧
      (dispatch st device).stats_files_ = st.stats_files_ ∧
      (dispatch st device).leds_idx_ = st.leds_idx_ := by
  rcases dispatch_cases st device with h | ⟨state, h⟩
  · rw [h]; simp
  · rw [h]; exact deviceChanged_table st device state

theorem dispatch_inv (st : DeviceMonitor) (device : udev_device)
    (hmap : st.disk_led_map_ = slotMapping) (h : TableInv st) :
    TableInv (dispatch st device) := by
  rcases dispatch_cases st device with h0 | ⟨state, h0⟩
  · rw [h0]; exact h
  · rw [h0]; exact deviceChanged_inv st device state hmap h

/-- No iteration of `Main` changes the tracked-disk table or the slot
mapping. -/
theorem mainIter_table (activity : Bool) (st : DeviceMonitor) (t : Tick) :
    (mainIter activity st t).1.num_disks_ = st.num_disks_ ∧
      (mainIter activity st t).1.disk_led_map_ = st.disk_led_map_ ∧
      (mainIter activity st t).1.stats_files_ = st.stats_files_ ∧
      (mainIter activity st t).1.leds_idx_ = st.leds_idx_ := by
  unfold mainIter
  split
  · split <;> simp
  · simp
  · split
    · simp
    · obtain ⟨a1, a2, a3, a4, _⟩ := pollPhase_table activity (dispatch st ‹udev_device›) t.fs
      obtain ⟨b1, b2, b3, b4⟩ := dispatch_table st ‹udev_device›
      exact ⟨a1.trans b1, a2.trans b2, a3.trans b3, a4.trans b4⟩
  · obtain ⟨a1, a2, a3, a4, _⟩ := pollPhase_table activity st t.fs
    exact ⟨a1, a2, a3, a4⟩

theorem mainIter_inv (activity : Bool) (st : DeviceMonitor) (t : Tick)
    (hmap : st.disk_led_map_ = slotMapping) (h : TableInv st) :
    TableInv (mainIter activity st t).1 := by
  unfold mainIter
  split
  · split <;> exact h
  · exact h
  · split
    · exact h
    · exact pollPhase_inv _ _ _ (dispatch_inv st _ hmap h)
  · exact pollPhase_inv _ _ _ h

theorem Main_inv (activity : Bool) : ∀ (ts : List Tick) (st : DeviceMonitor),
    st.disk_led_map_ = slotMapping → TableInv st → TableInv (Main activity st ts).1
  | [], st, _, h => by simpa [Main] using h
  | t :: ts, st, hmap, h => by
    have hinv := mainIter_inv activity st t hmap h
    obtain ⟨_, e2, _, _⟩ := mainIter_table activity st t
    rw [Main]
    split
    · next st1 heq =>
      rw [heq] at hinv e2
      exact Main_inv activity ts st1 (e2.trans hmap) hinv
    · next st1 e heq =>
      rw [heq] at hinv
      exact hinv

theorem devnodes_none (rest : List (Option udev_device)) :
    devnodes (none :: rest) = devnodes rest := rfl

theorem devnodes_some (d : udev_device) (rest : List (Option udev_device)) :
    devnodes (some d :: rest) = d.devnode :: devnodes rest := rfl

theorem mem_devnodes {d : udev_device} {devs : List (Option udev_device)}
    (h : some d ∈ devs) : d.devnode ∈ devnodes devs := by
  unfold devnodes
  exact List.mem_filterMap.mpr ⟨some d, h, rfl⟩

theorem recordDisk_num (st : DeviceMonitor) (S : Nat) (syspath : String) :
    (recordDisk st S syspath).num_disks_ = st.num_disks_ := rfl

theorem recordDisk_leds_idx_of_lt (st : DeviceMonitor) (S : Nat) (syspath : String) {i : Nat}
    (hi : i < st.num_disks_) : (recordDisk st S syspath).leds_idx_ i = st.leds_idx_ i := by
  show Function.update st.leds_idx_ st.num_disks_ S i = st.leds_idx_ i
  rw [Function.update_noteq (by omega)]

theorem recordDisk_inv (st : DeviceMonitor) (S : Nat) (syspath : String)
    (hnum : st.num_disks_ < 4) (h : TableInv st) : TableInv (recordDisk st S syspath) := by
  obtain ⟨h1, h2, h3, h4⟩ := h
  refine ⟨h1, ?_, ?_, ?_⟩
  · intro k hk
    have hk1 : k ∈ st.idx_trace ++ [st.num_disks_] := hk
    rcases List.mem_append.mp hk1 with hk | hk
    · exact h2 k hk
    · rw [List.mem_singleton.mp hk]; exact hnum
  · intro i hi
    rw [recordDisk_num] at hi
    rw [recordDisk_leds_idx_of_lt _ _ _ hi]
    exact h3 i hi
  · intro i j hi hj
    rw [recordDisk_num] at hi hj
    rw [recordDisk_leds_idx_of_lt _ _ _ hi, recordDisk_leds_idx_of_lt _ _ _ hj]
    exact h4 i j hi hj

theorem countDisk_recordDisk_inv (st : DeviceMonitor) (S : Nat) (syspath : String)
    (hnum : st.num_disks_ < 4) (hS : S < 4) (hnew : ∀ i, i < st.num_disks_ → st.leds_idx_ i ≠ S)
    (h : TableInv st) : TableInv (countDisk (recordDisk st S syspath)) := by
  obtain ⟨_, g2, _, _⟩ := recordDisk_inv st S syspath hnum h
  obtain ⟨h1, h2, h3, h4⟩ := h
  have hidx : ∀ i, (countDisk (recordDisk st S syspath)).leds_idx_ i =
      Function.update st.leds_idx_ st.num_disks_ S i := fun _ => rfl
  have hn : (countDisk (recordDisk st S syspath)).num_disks_ = st.num_disks_ + 1 := rfl
  refine ⟨by rw [hn]; omega, g2, ?_, ?_⟩
  · intro i hi
    rw [hn] at hi
    rw [hidx]
    by_cases hin : i = st.num_disks_
    · subst hin; rw [Function.update_same]; exact hS
    · rw [Function.update_noteq hin]; exact h3 i (by omega)
  · intro i j hi hj hij
    rw [hn] at hi hj
    rw [hidx, hidx] at hij
    by_cases hin : i = st.num_disks_ <;> by_cases hjn : j = st.num_disks_
    · omega
    · subst hin
      rw [Function.update_same, Function.update_noteq hjn] at hij
      exact absurd hij.symm (hnew j (by omega))
    · subst hjn
      rw [Function.update_same, Function.update_noteq hin] at hij
      exact absurd hij (hnew i (by omega))
    · rw [Function.update_noteq hin, Function.update_noteq hjn] at hij
      exact h4 i j (by omega) (by omega) hij

/-- The enumeration keeps the table within its bounds as long as the devices
still to come have pairwise distinct device nodes whose slots are not yet
taken. -/
theorem enumDevices_inv (fs : FileSystem) : ∀ (devs : List (Option udev_device))
    (st : DeviceMonitor), st.disk_led_map_ = slotMapping → TableInv st →
    (devnodes devs).Nodup →
    (∀ d, some d ∈ devs → ∀ S, slotMapping d.devnode = some S →
      ∀ i, i < st.num_disks_ → st.leds_idx_ i ≠ S) →
    (enumDevices_ fs st devs).disk_led_map_ = slotMapping ∧ TableInv (enumDevices_ fs st devs)
  | [], st, hmap, h, _, _ => by simpa [enumDevices_] using ⟨hmap, h⟩
  | none :: rest, st, hmap, h, hnd, hfresh => by
    rw [enumDevices_]
    exact enumDevices_inv fs rest st hmap h hnd
      (fun d hd => hfresh d (List.mem_cons_of_mem _ hd))
  | some device :: rest, st, hmap, h, hnd, hfresh => by
    rw [devnodes_some, List.nodup_cons] at hnd
    obtain ⟨hnotin, hnd⟩ := hnd
    have hrest : ∀ d, some d ∈ rest → ∀ S, slotMapping d.devnode = some S →
        ∀ i, i < st.num_disks_ → st.leds_idx_ i ≠ S :=
      fun d hd => hfresh d (List.mem_cons_of_mem _ hd)
    rw [enumDevices_]
    split
    · exact ⟨hmap, h⟩
    · split
      · exact enumDevices_inv fs rest st hmap h hnd hrest
      · next S hS =>
        rw [hmap] at hS
        have hSlt : S < 4 := slotMapping_lt hS
        have hnew : ∀ i, i < st.num_disks_ → st.leds_idx_ i ≠ S :=
          hfresh device (List.mem_cons_self _ _) S hS
        have hnum : st.num_disks_ < 4 :=
          lt_four_of_fresh_slot st.leds_idx_ st.num_disks_ S h.2.2.1 h.2.2.2 hSlt hnew
        have hinv1 := recordDisk_inv st S device.syspath hnum h
        split
        · refine enumDevices_inv fs rest _ hmap hinv1 hnd ?_
          intro d hd S1 hS1 i hi
          rw [recordDisk_num] at hi
          rw [recordDisk_leds_idx_of_lt _ _ _ hi]
          exact hrest d hd S1 hS1 i hi
        · have hinv2 := countDisk_recordDisk_inv st S device.syspath hnum hSlt hnew h
          obtain ⟨e1, e2, _, e4⟩ := deviceChanged_table
            (countDisk (recordDisk st S device.syspath)) device true
          refine enumDevices_inv fs rest _ (e2.trans hmap)
            (deviceChanged_inv _ device true hmap hinv2) hnd ?_
          intro d hd S1 hS1 i hi
          unfold deviceAdded_ at hi ⊢
          rw [e1] at hi
          rw [e4]
          have hi1 : i < st.num_disks_ + 1 := hi
          show Function.update st.leds_idx_ st.num_disks_ S i ≠ S1
          by_cases hin : i = st.num_disks_
          · subst hin
            rw [Function.update_same]
            intro hSS
            subst hSS
            have : d.devnode = device.devnode := slotMapping_inj hS1 hS
            exact hnotin (this ▸ mem_devnodes hd)
          · rw [Function.update_noteq hin]
            exact hrest d hd S1 hS1 i (by omega)

/-! ## The lamps of a slot across polling passes -/

theorem lampOn_snoc (init : LedType → Nat → Bool) (calls : List LedCall) (c : LedCall)
    (led : LedType) (idx : Nat) :
    lampOn init (calls ++ [c]) led idx =
      if c.led = led ∧ c.idx = idx then c.state else lampOn init calls led idx := by
  simp [lampOn, List.foldl_append]

/-- What the handlers do for a device that passes the topology checks and is
in the slot mapping. -/
theorem deviceChanged_of_mapped (st : DeviceMonitor) (device : udev_device) (host : ScsiHost)
    (S : Nat) (state : Bool) (hhost : device.scsi_host = some host)
    (hpci : host.parent_subsystem = some "pci")
    (hmap : st.disk_led_map_ device.devnode = some S) :
    deviceChanged_ st device state =
      { touch (ledSet st .LED_BLUE S state) S with
        led_enabled_ := Function.update st.led_enabled_ S state } := by
  unfold deviceChanged_
  simp only [hhost, hpci, hmap, ne_eq, not_true_eq_false, ↓reduceIte]
  rfl

theorem statsLine_congr (fs : FileSystem) {st st1 : DeviceMonitor}
    (h : st1.stats_files_ = st.stats_files_) (i : Nat) :
    statsLine fs st1 i = statsLine fs st i := by
  unfold statsLine statsFile
  rw [h]

/-- The effect of the loop body on the activity lamp of slot `S`. -/
theorem pollDisk_lamp (fs : FileSystem) (st : DeviceMonitor) (i : Nat) (q : Int)
    (calls : List LedCall) (init : LedType → Nat → Bool) (S : Nat)
    (hq : tokenize (statsLine fs st i) = .ok q) (hleds : st.leds_ = some calls)
    (hen : st.led_enabled_ S = true) :
    (pollDisk fs st i).2 = none ∧
      ∃ calls1, (pollDisk fs st i).1.leds_ = some calls1 ∧
        lampOn init calls1 .LED_RED S =
          if st.leds_idx_ i = S then decide (0 < q) else lampOn init calls .LED_RED S := by
  rw [pollDisk_ok fs st i q hq]
  refine ⟨rfl, ?_⟩
  by_cases hS : st.leds_idx_ i = S
  · have hen1 : st.led_enabled_ (ledIndex st i) = true := by
      unfold ledIndex; rw [hS]; exact hen
    refine ⟨calls ++ [⟨.LED_BLUE, ledIndex st i, true⟩] ++
      [⟨.LED_RED, ledIndex st i, decide (0 < q)⟩], ?_, ?_⟩
    · simp [hen1, hleds, ledSet, touch]
    · rw [lampOn_snoc]
      simp [ledIndex, hS]
  · by_cases hen1 : (st.led_enabled_ (ledIndex st i) && st.leds_.isSome) = true
    · refine ⟨calls ++ [⟨.LED_BLUE, ledIndex st i, true⟩] ++
        [⟨.LED_RED, ledIndex st i, decide (0 < q)⟩], ?_, ?_⟩
      · simp only [hen1, ↓reduceIte]
        simp [hleds, ledSet, touch]
      · rw [lampOn_snoc, lampOn_snoc]
        simp [ledIndex, hS]
    · refine ⟨calls, ?_, ?_⟩
      · simp only [hen1]
        simp [hleds, touch]
      · simp [hS]

/-- The effect of the polling loop over the disks `is` on the activity lamp
of slot `S`, when `i0` is the only disk on that slot. -/
theorem pollDisks_lamp (fs : FileSystem) (init : LedType → Nat → Bool) (S i0 : Nat) (q0 : Int) :
    ∀ (is : List Nat) (st : DeviceMonitor) (calls : List LedCall),
      st.leds_ = some calls → st.led_enabled_ S = true → st.leds_idx_ i0 = S →
      (∀ j ∈ is, st.leds_idx_ j = S → j = i0) →
      (∀ j ∈ is, ∃ q, tokenize (statsLine fs st j) = .ok q) →
      tokenize (statsLine fs st i0) = .ok q0 →
      (pollDisks fs st is).2 = none ∧
        ∃ calls1, (pollDisks fs st is).1.leds_ = some calls1 ∧
          lampOn init calls1 .LED_RED S =
            if i0 ∈ is then decide (0 < q0) else lampOn init calls .LED_RED S
  | [], st, calls, hleds, _, _, _, _, _ => by
    simp [pollDisks, hleds]
  | i :: is, st, calls, hleds, hen, hslot, huniq, hok, hq0 => by
    obtain ⟨q, hq⟩ := hok i (List.mem_cons_self _ _)
    obtain ⟨hnone, calls1, hleds1, hlamp1⟩ := pollDisk_lamp fs st i q calls init S hq hleds hen
    obtain ⟨_, _, e3, e4, e5⟩ := pollDisk_table fs st i
    rw [pollDisks]
    split
    · next st1 heq =>
      rw [heq] at hleds1 e3 e4 e5
      simp only at hleds1 e3 e4 e5
      have ih := pollDisks_lamp fs init S i0 q0 is st1 calls1 hleds1 (by rw [e5]; exact hen)
        (by rw [e4]; exact hslot)
        (fun j hj hS => huniq j (List.mem_cons_of_mem _ hj) (by rw [← e4]; exact hS))
        (fun j hj => by
          rw [statsLine_congr fs e3]; exact hok j (List.mem_cons_of_mem _ hj))
        (by rw [statsLine_congr fs e3]; exact hq0)
      obtain ⟨ih1, calls2, ih2, ih3⟩ := ih
      refine ⟨ih1, calls2, ih2, ?_⟩
      rw [ih3, hlamp1]
      by_cases hmem : i0 ∈ is
      · simp [hmem]
      · by_cases hi : i = i0
        · subst hi
          have : q = q0 := by
            have := hq.symm.trans hq0
            simpa using this
          simp [hmem, hslot, this]
        · have hne : st.leds_idx_ i ≠ S := fun hS => hi (huniq i (List.mem_cons_self _ _) hS)
          have hne2 : ¬ i0 = i := fun h => hi h.symm
          simp [hmem, hne, hne2]
    · next st1 e heq =>
      rw [heq] at hnone
      simp at hnone

theorem mainIter_timeout (st : DeviceMonitor) (fs : FileSystem)
    (h : (pollPass fs st).2 = none) :
    mainIter true st ⟨.timeout, fs⟩ = ((pollPass fs st).1, none) := by
  unfold mainIter pollPhase
  simp only [↓reduceIte]
  split
  · next st1 heq => rw [heq]
  · next st1 e heq => rw [heq] at h; simp at h

/-- One polling pass that reads no line of exactly 8 fields completes, and
leaves the activity lamp of slot `S` as the queue length of its disk says. -/
theorem pollPass_lamp (fs : FileSystem) (init : LedType → Nat → Bool) (S i0 : Nat) (q0 : Int)
    (st : DeviceMonitor) (calls : List LedCall)
    (hleds : st.leds_ = some calls) (hen : st.led_enabled_ S = true)
    (hi0 : i0 < st.num_disks_) (hslot : st.leds_idx_ i0 = S)
    (huniq : ∀ j, j < st.num_disks_ → st.leds_idx_ j = S → j = i0)
    (hlines : ∀ j, j < st.num_disks_ → (fields (statsLine fs st j)).length ≠ 8)
    (hq0 : tokenize (statsLine fs st i0) = .ok q0) :
    (pollPass fs st).2 = none ∧
      ∃ calls1, (pollPass fs st).1.leds_ = some calls1 ∧
        lampOn init calls1 .LED_RED S = decide (0 < q0) := by
  obtain ⟨h1, calls1, h2, h3⟩ := pollDisks_lamp fs init S i0 q0 (List.range st.num_disks_) st
    calls hleds hen hslot (fun j hj => huniq j (List.mem_range.mp hj))
    (fun j hj => tokenize_ok_of_not_eight_fields fs st j (hlines j (List.mem_range.mp hj))) hq0
  refine ⟨h1, calls1, h2, ?_⟩
  rw [h3, if_pos (List.mem_range.mpr hi0)]

theorem cons_eq_append_singleton {α : Type} {a x : α} {rest pre : List α}
    (h : a :: rest = pre ++ [x]) :
    (rest = [] ∧ x = a) ∨ ∃ pre1, rest = pre1 ++ [x] := by
  cases pre with
  | nil =>
    left
    simp at h
    exact ⟨h.2, h.1.symm⟩
  | cons b pre1 =>
    right
    simp at h
    exact ⟨pre1, h.2⟩

/-- A run of polling passes that read no line of exactly 8 fields completes,
keeps the table and the enabled flags, and leaves the activity lamp of slot
`S` as the last pass set it. -/
theorem pollTicks_lamp (init : LedType → Nat → Bool) (S i0 : Nat) :
    ∀ (fss : List FileSystem) (st : DeviceMonitor) (calls : List LedCall),
      st.leds_ = some calls → st.led_enabled_ S = true →
      i0 < st.num_disks_ → st.leds_idx_ i0 = S →
      (∀ j, j < st.num_disks_ → st.leds_idx_ j = S → j = i0) →
      (∀ fs ∈ fss, ∀ j, j < st.num_disks_ → (fields (statsLine fs st j)).length ≠ 8) →
      ∃ st2 calls2, Main true st (pollTicks fss) = (st2, none) ∧
        st2.disk_led_map_ = st.disk_led_map_ ∧ st2.led_enabled_ = st.led_enabled_ ∧
        st2.leds_ = some calls2 ∧ (fss = [] → calls2 = calls) ∧
        ∀ pre fs q, fss = pre ++ [fs] → tokenize (statsLine fs st i0) = .ok q →
          lampOn init calls2 .LED_RED S = decide (0 < q)
  | [], st, calls, hleds, _, _, _, _, _ => by
    refine ⟨st, calls, rfl, rfl, rfl, hleds, fun _ => rfl, ?_⟩
    intro pre fs q h
    simp at h
  | fs :: rest, st, calls, hleds, hen, hi0, hslot, huniq, hlines => by
    have hl : ∀ j, j < st.num_disks_ → (fields (statsLine fs st j)).length ≠ 8 :=
      hlines fs (List.mem_cons_self _ _)
    obtain ⟨q0, hq0⟩ := tokenize_ok_of_not_eight_fields fs st i0 (hl i0 hi0)
    obtain ⟨hnone, calls1, hleds1, hlamp1⟩ :=
      pollPass_lamp fs init S i0 q0 st calls hleds hen hi0 hslot huniq hl hq0
    obtain ⟨e1, e2, e3, e4, e5⟩ := pollPass_table fs st
    obtain ⟨st2, calls2, hrun, hm, hE, hleds2, hnil, hlast⟩ :=
      pollTicks_lamp init S i0 rest (pollPass fs st).1 calls1 hleds1 (by rw [e5]; exact hen)
        (by rw [e1]; exact hi0) (by rw [e4]; exact hslot)
        (fun j hj hS => huniq j (by rw [← e1]; exact hj) (by rw [← e4]; exact hS))
        (fun fs1 hfs1 j hj => by
          rw [statsLine_congr fs1 e3]
          exact hlines fs1 (List.mem_cons_of_mem _ hfs1) j (by rw [← e1]; exact hj))
    refine ⟨st2, calls2, ?_, hm.trans e2, hE.trans e5, hleds2, fun h => by simp at h, ?_⟩
    · show Main true st (⟨.timeout, fs⟩ :: pollTicks rest) = (st2, none)
      rw [Main, mainIter_timeout st fs hnone]
      exact hrun
    · intro pre fs1 q hsplit hq
      rcases cons_eq_append_singleton hsplit with ⟨hrest, hx⟩ | ⟨pre1, hrest⟩
      · subst hx
        rw [hnil hrest, hlamp1]
        have : q0 = q := by
          have := hq0.symm.trans hq
          simpa using this
        rw [this]
      · exact hlast pre1 fs1 q hrest (by rw [statsLine_congr fs1 e3]; exact hq)

/-! ## Further facts on enumeration and on the exits of the main loop -/

/-- When the unmapped device has a scsi_host ancestor, the enumeration of a
mapped and an unmapped device tracks one disk and issues one driver call, in
either order. -/
theorem enumDevices_mapped_and_unmapped (fs : FileSystem) (st : DeviceMonitor)
    (m u : udev_device) (hostm hostu : ScsiHost) (S : Nat) (calls : List LedCall)
    (content : List Char)
    (hnum : st.num_disks_ = 0) (hleds : st.leds_ = some calls)
    (hm : st.disk_led_map_ m.devnode = some S) (hu : st.disk_led_map_ u.devnode = none)
    (hhostm : m.scsi_host = some hostm) (hpci : hostm.parent_subsystem = some "pci")
    (hhostu : u.scsi_host = some hostu)
    (hopen : fs (m.syspath ++ "/stat") = some content) :
    (enumDevices_ fs st [some m, some u]).num_disks_ = 1 ∧
      (enumDevices_ fs st [some m, some u]).leds_ = some (calls ++ [⟨.LED_BLUE, S, true⟩]) ∧
      (enumDevices_ fs st [some u, some m]).num_disks_ = 1 ∧
      (enumDevices_ fs st [some u, some m]).leds_ = some (calls ++ [⟨.LED_BLUE, S, true⟩]) := by
  have hrec : (recordDisk st S m.syspath).stats_files_ st.num_disks_ = m.syspath ++ "/stat" := by
    simp [recordDisk, touch]
  have hmap1 : (countDisk (recordDisk st S m.syspath)).disk_led_map_ m.devnode = some S := hm
  have hadd := deviceChanged_of_mapped (countDisk (recordDisk st S m.syspath)) m hostm S true
    hhostm hpci hmap1
  have hstep : enumDevices_ fs st [some m] =
      deviceAdded_ (countDisk (recordDisk st S m.syspath)) m := by
    simp [enumDevices_, hhostm, hm, hrec, hopen]
  have hmapu : (deviceAdded_ (countDisk (recordDisk st S m.syspath)) m).disk_led_map_ u.devnode
      = none := by
    unfold deviceAdded_
    rw [(deviceChanged_table _ m true).2.1]
    exact hu
  have h1 : enumDevices_ fs st [some m, some u] =
      deviceAdded_ (countDisk (recordDisk st S m.syspath)) m := by
    rw [enumDevices_]
    simp only [hhostm, hm, hrec, hopen]
    rw [enumDevices_]
    simp only [hhostu, hmapu]
    rfl
  have h2 : enumDevices_ fs st [some u, some m] =
      deviceAdded_ (countDisk (recordDisk st S m.syspath)) m := by
    rw [enumDevices_]
    simp only [hhostu, hu]
    exact hstep
  rw [h1, h2]
  unfold deviceAdded_
  rw [hadd]
  simp [ledSet, touch, countDisk, recordDisk, hnum, hleds]

theorem expected_error : ∀ (F : List (List Char)) (n : Nat) (e : Exn),
    expected F n = .error e → e = .out_of_range
  | _, 0, e, h => by simp [expected] at h
  | [], 1, e, h => by simp [expected] at h; exact h.symm
  | [], n + 2, e, h => by simp [expected] at h
  | w :: _, 1, e, h => by simp [expected] at h
  | _ :: F, n + 2, e, h => by
    rw [expected] at h
    exact expected_error F (n + 1) e h

theorem pollDisk_exn (fs : FileSystem) (st : DeviceMonitor) (i : Nat) (e : Exn)
    (h : (pollDisk fs st i).2 = some e) : e = .out_of_range := by
  cases hq : tokenize (statsLine fs st i) with
  | error e1 =>
    rw [pollDisk_error fs st i e1 hq] at h
    rw [tokenize_statsLine] at hq
    have := expected_error _ _ _ hq
    simp at h
    rw [← h]; exact this
  | ok q =>
    rw [pollDisk_ok fs st i q hq] at h
    simp at h

theorem pollDisks_exn (fs : FileSystem) : ∀ (is : List Nat) (st : DeviceMonitor) (e : Exn),
    (pollDisks fs st is).2 = some e → e = .out_of_range
  | [], st, e, h => by simp [pollDisks] at h
  | i :: is, st, e, h => by
    rw [pollDisks] at h
    split at h
    · exact pollDisks_exn fs is _ e h
    · next st1 e1 heq =>
      have := pollDisk_exn fs st i e1 (by rw [heq])
      simp at h
      rw [← h]; exact this

/-- The ways in which an iteration of `Main` leaves the loop: a failed wait
(return on `EINTR`, `ErrnoException` otherwise), a received null device or a
received device without scsi_host ancestor (return at line 137), and
`std::out_of_range` thrown by the tokenizer of the polling pass. -/
theorem mainIter_exit_cases (activity : Bool) (st : DeviceMonitor) (t : Tick) (e : Exit)
    (h : (mainIter activity st t).2 = some e) :
    (t.wait = .failed true ∧ e = .returned) ∨
      (t.wait = .failed false ∧ e = .threw (.ErrnoException "select")) ∨
      (t.wait = .ready none ∧ e = .returned) ∨
      (∃ d, t.wait = .ready (some d) ∧ d.scsi_host = none ∧ e = .returned) ∨
      (activity = true ∧ e = .threw .out_of_range) := by
  have hpoll : ∀ st1, (pollPhase activity st1 t.fs).2 = some e →
      activity = true ∧ e = .threw .out_of_range := by
    intro st1 h1
    unfold pollPhase at h1
    cases activity with
    | false => simp at h1
    | true =>
      simp only [↓reduceIte] at h1
      split at h1
      · simp at h1
      · next st2 e1 heq =>
        have := pollDisks_exn t.fs _ st1 e1 (by unfold pollPass at heq; rw [heq])
        simp at h1
        exact ⟨rfl, by rw [← h1, this]⟩
  unfold mainIter at h
  split at h
  · next eintr hw =>
    cases eintr with
    | true => left; simp at h; exact ⟨hw, h.symm⟩
    | false => right; left; simp at h; exact ⟨hw, h.symm⟩
  · next hw => right; right; left; simp at h; exact ⟨hw, h.symm⟩
  · next d hw =>
    split at h
    · next hnone => right; right; right; left; simp at h; exact ⟨d, hw, hnone, h.symm⟩
    · right; right; right; right; exact hpoll _ h
  · right; right; right; right; exact hpoll _ h

/-! ## The main loop -/

/-- Every iteration that receives a device without a scsi_host ancestor ends
`Main` by a plain return, whatever the iterations after it would bring. -/
theorem Main_returns_of_no_scsi_host (activity : Bool) (st : DeviceMonitor)
    (device : udev_device) (fs : FileSystem) (ts : List Tick)
    (h : device.scsi_host = none) :
    Main activity st (⟨.ready (some device), fs⟩ :: ts) = (st, some .returned) := by
  rw [Main]
  unfold mainIter
  simp [h]

/-- C6: the code at an event whose device has no scsi_host ancestor. No wait
fails in this run, yet `Main` returns in its first iteration (line 137); the
second iteration is never reached. -/
theorem C6_main_returns_on_foreign_device :
    (Main false fresh [⟨.ready (some nvme), sdaStats ""⟩, ⟨.timeout, sdaStats ""⟩]).2 =
        some .returned ∧
      (Main true fresh [⟨.ready (some nvme), sdaStats ""⟩, ⟨.timeout, sdaStats ""⟩]).2 =
        some .returned := by
  decide

/-- C7, as stated, fails: from a state with both lamps of slot 0 off, an add
event, one polling pass that reads a queue length of 3 and a remove event
leave the activity lamp of slot 0 on. -/
theorem C7_activity_lamp_stays_on :
    absent.leds_ = some [⟨.LED_BLUE, 0, true⟩, ⟨.LED_BLUE, 0, false⟩] ∧
      lampOn (fun _ _ => false) [⟨.LED_BLUE, 0, true⟩, ⟨.LED_BLUE, 0, false⟩] .LED_BLUE 0 = false ∧
      lampOn (fun _ _ => false) [⟨.LED_BLUE, 0, true⟩, ⟨.LED_BLUE, 0, false⟩] .LED_RED 0 = false ∧
      (deviceRemove_
        (Main true (deviceAdded_ absent sda)
          (pollTicks [sdaStats " 0 0 0 0 0 0 0 0 3 0 0"])).1 sda).leds_ =
        some [⟨.LED_BLUE, 0, true⟩, ⟨.LED_BLUE, 0, false⟩, ⟨.LED_BLUE, 0, true⟩,
          ⟨.LED_BLUE, 0, true⟩, ⟨.LED_RED, 0, true⟩, ⟨.LED_BLUE, 0, false⟩] ∧
      lampOn (fun _ _ => false)
        [⟨.LED_BLUE, 0, true⟩, ⟨.LED_BLUE, 0, false⟩, ⟨.LED_BLUE, 0, true⟩,
          ⟨.LED_BLUE, 0, true⟩, ⟨.LED_RED, 0, true⟩, ⟨.LED_BLUE, 0, false⟩] .LED_RED 0 = true := by
  decide

/-- C7, amended: for a device that passes the topology checks, is mapped to
slot `S` and is the only tracked disk on that slot, starting with both lamps
of `S` off and a driver attached: an add event, then any number of polling
passes none of which reads a line of exactly 8 fields, then a remove event.
The polling passes complete; afterwards the presence lamp of `S` is off and
the enabled flag of `S` is false. The activity lamp of `S` is off when no
polling pass ran; otherwise it is on exactly when the last pass read a
positive queue length for the disk. -/
theorem C7_round_trip_presence_off (st : DeviceMonitor) (device : udev_device)
    (host : ScsiHost) (S i0 : Nat) (calls : List LedCall) (init : LedType → Nat → Bool)
    (fss : List FileSystem)
    (hhost : device.scsi_host = some host) (hpci : host.parent_subsystem = some "pci")
    (hmap : st.disk_led_map_ device.devnode = some S) (hleds : st.leds_ = some calls)
    (htracked : i0 < st.num_disks_) (hslot : st.leds_idx_ i0 = S)
    (huniq : ∀ j, j < st.num_disks_ → st.leds_idx_ j = S → j = i0)
    (_hblue : lampOn init calls .LED_BLUE S = false)
    (hred : lampOn init calls .LED_RED S = false)
    (hlines : ∀ fs ∈ fss, ∀ j, j < st.num_disks_ → (fields (statsLine fs st j)).length ≠ 8) :
    ∃ st2 calls3, Main true (deviceAdded_ st device) (pollTicks fss) = (st2, none) ∧
      (deviceRemove_ st2 device).leds_ = some calls3 ∧
      lampOn init calls3 .LED_BLUE S = false ∧
      (deviceRemove_ st2 device).led_enabled_ S = false ∧
      (fss = [] → lampOn init calls3 .LED_RED S = false) ∧
      ∀ pre fs q, fss = pre ++ [fs] → tokenize (statsLine fs st i0) = .ok q →
        lampOn init calls3 .LED_RED S = decide (0 < q) := by
  have hadd := deviceChanged_of_mapped st device host S true hhost hpci hmap
  have hleds1 : (deviceAdded_ st device).leds_ = some (calls ++ [⟨.LED_BLUE, S, true⟩]) := by
    unfold deviceAdded_; rw [hadd]; simp [ledSet, touch, hleds]
  have hen1 : (deviceAdded_ st device).led_enabled_ S = true := by
    unfold deviceAdded_; rw [hadd]; simp [ledSet, touch]
  obtain ⟨e1, e2, e3, e4⟩ := deviceChanged_table st device true
  obtain ⟨st2, calls2, hrun, hm, _, hleds2, hnil, hlast⟩ :=
    pollTicks_lamp init S i0 fss (deviceAdded_ st device) _ hleds1 hen1
      (by unfold deviceAdded_; rw [e1]; exact htracked)
      (by unfold deviceAdded_; rw [e4]; exact hslot)
      (fun j hj hS => huniq j (by unfold deviceAdded_ at hj; rw [← e1]; exact hj)
        (by unfold deviceAdded_ at hS; rw [← e4]; exact hS))
      (fun fs hfs j hj => by
        unfold deviceAdded_ at hj ⊢
        rw [statsLine_congr fs e3]
        exact hlines fs hfs j (by rw [← e1]; exact hj))
  have hmap2 : st2.disk_led_map_ device.devnode = some S := by
    rw [hm]; unfold deviceAdded_; rw [e2]; exact hmap
  have hrem := deviceChanged_of_mapped st2 device host S false hhost hpci hmap2
  refine ⟨st2, calls2 ++ [⟨.LED_BLUE, S, false⟩], hrun, ?_, ?_, ?_, ?_, ?_⟩
  · unfold deviceRemove_; rw [hrem]; simp [ledSet, touch, hleds2]
  · rw [lampOn_snoc]; simp
  · unfold deviceRemove_; rw [hrem]; simp [ledSet, touch]
  · intro hfss
    rw [lampOn_snoc, hnil hfss, lampOn_snoc]
    simp [hred]
  · intro pre fs q hsplit hq
    rw [lampOn_snoc]
    simp only [reduceCtorEq, false_and, ↓reduceIte]
    refine hlast pre fs q hsplit ?_
    unfold deviceAdded_
    rw [statsLine_congr fs e3]
    exact hq

/-- C7, amended, at the disk `sda` with one polling pass that reads an idle
line. -/
theorem C7_round_trip_presence_off_witness :
    ∃ st2 calls3,
      Main true (deviceAdded_ absent sda)
        (pollTicks [sdaStats " 0 0 0 0 0 0 0 0 0 0 0"]) = (st2, none) ∧
      (deviceRemove_ st2 sda).leds_ = some calls3 ∧
      lampOn (fun _ _ => false) calls3 .LED_BLUE 0 = false ∧
      (deviceRemove_ st2 sda).led_enabled_ 0 = false ∧
      ([sdaStats " 0 0 0 0 0 0 0 0 0 0 0"] = [] →
        lampOn (fun _ _ => false) calls3 .LED_RED 0 = false) ∧
      ∀ pre fs q, [sdaStats " 0 0 0 0 0 0 0 0 0 0 0"] = pre ++ [fs] →
        tokenize (statsLine fs absent 0) = .ok q →
        lampOn (fun _ _ => false) calls3 .LED_RED 0 = decide (0 < q) :=
  C7_round_trip_presence_off absent sda ⟨some "pci"⟩ 0 0
    [⟨.LED_BLUE, 0, true⟩, ⟨.LED_BLUE, 0, false⟩] (fun _ _ => false)
    [sdaStats " 0 0 0 0 0 0 0 0 0 0 0"] rfl rfl (by decide) (by decide) (by decide) (by decide)
    (fun j hj _ => by
      have h1 : absent.num_disks_ = 1 := by decide
      omega)
    (by decide) (by decide)
    (fun fs hfs j hj => by
      have h1 : absent.num_disks_ = 1 := by decide
      have hj0 : j = 0 := by omega
      rw [List.mem_singleton.mp hfs, hj0]
      decide)

/-! ## Enumeration -/

/-- C8: the code at an enumeration list of a mapped device and an unmapped
device without a scsi_host ancestor. With the unmapped device first the
enumeration returns at line 273 before it reaches the mapped one: no disk is
tracked and no driver call is issued. With the mapped device first one disk
is tracked and one call is issued. -/
theorem C8_enumeration_stops_at_foreign_device :
    (enumDevices_ (sdaStats "") fresh [some nvme, some sda]).num_disks_ = 0 ∧
      (enumDevices_ (sdaStats "") fresh [some nvme, some sda]).leds_ = some [] ∧
      (enumDevices_ (sdaStats "") fresh [some sda, some nvme]).num_disks_ = 1 ∧
      (enumDevices_ (sdaStats "") fresh [some sda, some nvme]).leds_ =
        some [⟨.LED_BLUE, 0, true⟩] := by
  decide

/-- C9, as stated, fails: an add event for the mapped disk `sda` received in
`Main` by a monitor that tracks no disk leaves the tracked count at 0. -/
theorem C9_add_event_creates_no_entry :
    fresh.num_disks_ = 0 ∧
      (Main false fresh [⟨.ready (some sda), sdaStats ""⟩]).1.num_disks_ = 0 ∧
      (Main true fresh [⟨.ready (some sda), sdaStats ""⟩]).1.num_disks_ = 0 := by
  decide

/-- C9, amended: an iteration of `Main` that receives an add event for a
device that passes the topology checks and is mapped to slot `S` leaves the
tracked-disk table as it was (the count, the stats-source paths and the slot
indices), whether or not the device has an entry; it sets the enabled flag of
`S`. Entries are created by `enumDevices_` only. -/
theorem C9_add_event_leaves_table (activity : Bool) (st : DeviceMonitor)
    (device : udev_device) (host : ScsiHost) (S : Nat) (fs : FileSystem)
    (hhost : device.scsi_host = some host) (hpci : host.parent_subsystem = some "pci")
    (hmap : st.disk_led_map_ device.devnode = some S)
    (hact : device.action = some "add") :
    (mainIter activity st ⟨.ready (some device), fs⟩).1.num_disks_ = st.num_disks_ ∧
      (mainIter activity st ⟨.ready (some device), fs⟩).1.stats_files_ = st.stats_files_ ∧
      (mainIter activity st ⟨.ready (some device), fs⟩).1.leds_idx_ = st.leds_idx_ ∧
      (mainIter activity st ⟨.ready (some device), fs⟩).1.led_enabled_ S = true := by
  obtain ⟨e1, _, e3, e4⟩ := mainIter_table activity st ⟨.ready (some device), fs⟩
  refine ⟨e1, e3, e4, ?_⟩
  have hd : dispatch st device = deviceChanged_ st device true := by
    unfold dispatch
    rw [hact]
    have : strcasecmp_eq "add" "add" = true := by decide
    simp [this, deviceAdded_]
  unfold mainIter
  simp only [hhost]
  obtain ⟨_, _, _, _, a5⟩ := pollPhase_table activity (dispatch st device) fs
  rw [a5, hd, deviceChanged_of_mapped st device host S true hhost hpci hmap]
  simp [ledSet, touch]

/-- C9, amended, at the disk `sda` on a freshly constructed monitor. -/
theorem C9_add_event_leaves_table_witness :
    (mainIter true fresh ⟨.ready (some sda), sdaStats ""⟩).1.num_disks_ = fresh.num_disks_ ∧
      (mainIter true fresh ⟨.ready (some sda), sdaStats ""⟩).1.stats_files_ =
        fresh.stats_files_ ∧
      (mainIter true fresh ⟨.ready (some sda), sdaStats ""⟩).1.leds_idx_ = fresh.leds_idx_ ∧
      (mainIter true fresh ⟨.ready (some sda), sdaStats ""⟩).1.led_enabled_ 0 = true :=
  C9_add_event_leaves_table true fresh sda ⟨some "pci"⟩ 0 (sdaStats "") rfl rfl (by decide) rfl

/-- C10: after `enumDevices_` ran from an empty table, with the slot mapping
of the constructor, over devices with pairwise distinct device nodes, the
table is within its bounds (`TableInv`): at most 4 tracked disks, every index
used on a member array below 4, every recorded slot index below 4, no two
tracked entries on one slot. The add and remove handlers preserve this, and
so does every run of `Main`, whose polling passes therefore use indices
below 4 only. -/
theorem C10_tracked_table_within_bounds (fs : FileSystem) (st : DeviceMonitor)
    (devs : List (Option udev_device))
    (hnum : st.num_disks_ = 0) (hmap : st.disk_led_map_ = slotMapping)
    (htrace : st.idx_trace = []) (hnd : (devnodes devs).Nodup) :
    TableInv (enumDevices_ fs st devs) ∧
      (∀ device, TableInv (deviceAdded_ (enumDevices_ fs st devs) device) ∧
        TableInv (deviceRemove_ (enumDevices_ fs st devs) device)) ∧
      ∀ activity ticks, TableInv (Main activity (enumDevices_ fs st devs) ticks).1 := by
  have h0 : TableInv st := by
    refine ⟨by omega, by simp [htrace], ?_, ?_⟩
    · intro i hi; omega
    · intro i j hi; omega
  obtain ⟨hm, hinv⟩ := enumDevices_inv fs devs st hmap h0 hnd
    (fun d _ S _ i hi => by omega)
  exact ⟨hinv, fun device => ⟨deviceChanged_inv _ device true hm hinv,
    deviceChanged_inv _ device false hm hinv⟩,
    fun activity ticks => Main_inv activity ticks _ hm hinv⟩

/-- C10 at an enumeration list of a mapped and an unmapped disk. -/
theorem C10_tracked_table_within_bounds_witness :
    TableInv (enumDevices_ (sdaStats "") fresh [some sda, some sde]) ∧
      (∀ device,
        TableInv (deviceAdded_ (enumDevices_ (sdaStats "") fresh [some sda, some sde]) device) ∧
        TableInv (deviceRemove_ (enumDevices_ (sdaStats "") fresh [some sda, some sde]) device)) ∧
      ∀ activity ticks,
        TableInv (Main activity (enumDevices_ (sdaStats "") fresh [some sda, some sde]) ticks).1 :=
  C10_tracked_table_within_bounds (sdaStats "") fresh [some sda, some sde] rfl rfl rfl
    (by decide)

end MediaSmartServer
